import Mathlib

/-!
A verification development for the schema-inference and standardization
engine of `schemas.py` (OpenRFM).

Modelling conventions.

* Pandas cell values are modelled by the inductive type `Cell`: `Cell.na`
  is a missing value (`NaN`), `Cell.str s` is a raw value whose Python
  string form is `s` (raw tables, e.g. CSV imports, carry `str`/`na`
  cells), and `Cell.num` / `Cell.dt` are the typed cells produced by the
  standardizer (numeric and timestamp columns).
* Python floats are modelled by exact rationals `ℚ`; every score in the
  engine is a short combination of decimal constants, so this is faithful
  for the properties stated here.  `round(x, 3)` is modelled by `round3`
  (round half to even at three decimals, the rounding mode of Python).
* The behaviour of the external libraries (the `fuzzywuzzy` partial-ratio
  scorer, `pd.to_numeric`, `pd.to_datetime`, and the Python `str` rendering
  of non-string cells) is abstracted into an explicit oracle structure
  `Env`; the engine is defined uniformly over it.  `Env.WF` records the
  single contract the code relies on: a partial ratio is a percentage.
  Concrete witnesses use `testEnv`, which realises the oracles on the
  simple literals appearing in the witness tables (plain decimal
  numerals, ISO dates, substring-based 100% fuzzy matches).
* A dataframe (`Frame`) is an ordered list of named columns.
-/

namespace OpenRFM

/-! ### Character-level string helpers

Core `String` functions such as `String.trim` are implemented on byte
positions and do not reduce well in the kernel, so all string processing
is done on `List Char` via `String.data`. -/

/-- Lower-case every character (models Python `str.lower` on the ASCII
column names handled by the engine). -/
def lowerStr (s : String) : String :=
  String.mk (s.data.map Char.toLower)

/-- Collapse every maximal run of whitespace to a single blank: the
effect of `re.sub(r"\s+", " ", ...)`. -/
def squeezeWs : List Char → List Char
  | [] => []
  | [c] => if c.isWhitespace then [' '] else [c]
  | c :: d :: rest =>
    if c.isWhitespace then
      if d.isWhitespace then squeezeWs (d :: rest)
      else ' ' :: squeezeWs (d :: rest)
    else c :: squeezeWs (d :: rest)

/-- Remove leading and trailing whitespace (Python `str.strip`). -/
def stripChars (l : List Char) : List Char :=
  ((l.dropWhile Char.isWhitespace).reverse.dropWhile Char.isWhitespace).reverse

/-- Python `str.strip` on a `String`. -/
def stripStr (s : String) : String :=
  String.mk (stripChars s.data)

/-- Substring test on character lists (the Python `in` test on strings). -/
def containsChars (s pat : List Char) : Bool :=
  s.tails.any (fun t => pat.isPrefixOf t)

/-- Substring test on strings. -/
def strContains (s pat : String) : Bool :=
  containsChars s.data pat.data

/-- Does `s` contain an occurrence of `k` followed (anywhere later) by an
occurrence of `pat`?  This is the search semantics of the regular
expression `k.*pat`. -/
def seqThen (s k pat : List Char) : Bool :=
  (List.range (s.length + 1)).any
    (fun i => k.isPrefixOf (s.drop i) && containsChars (s.drop (i + k.length)) pat)

/-- `_normalise_column_name`: replace `_` and `-` by blanks, collapse
whitespace runs, strip, lower-case. -/
def normaliseColumnName (s : String) : String :=
  lowerStr (String.mk (stripChars (squeezeWs
    (s.data.map (fun c => if c = '_' ∨ c = '-' then ' ' else c)))))

/-! ### Rounding -/

/-- Round a rational to the nearest integer, ties to even (the rounding
mode of the Python `round` builtin). -/
def rhe (q : ℚ) : ℤ :=
  let n : ℤ := ⌊q⌋
  let f : ℚ := q - n
  if 1/2 < f then n + 1
  else if f < 1/2 then n
  else if Even n then n else n + 1

/-- Python `round(x, 3)` on the exact-rational model of a float. -/
def round3 (q : ℚ) : ℚ :=
  (rhe (q * 1000) : ℚ) / 1000

/-! ### The external-library oracle -/

/-- Behaviour of the external libraries the engine calls, abstracted per
value.  `fuzz a b` is `fuzzywuzzy.fuzz.partial_ratio(a, b)` (an integer
percentage); `toNumeric` is `pd.to_numeric(errors="coerce")` on one
string (`none` models `NaN`, i.e. a failed coercion); `toDatetime` is
`pd.to_datetime(errors="coerce")` on one string (`none` models `NaT`);
`numToDatetime` is `pd.to_datetime` on a numeric cell; `showNum` and
`showDt` are Python `str()` on numeric and timestamp cells (used by
`astype(str)`). -/
structure Env where
  fuzz : String → String → ℕ
  toNumeric : String → Option ℚ
  toDatetime : String → Option ℤ
  numToDatetime : ℚ → Option ℤ
  showNum : ℚ → String
  showDt : ℤ → String

/-- The one property of the oracles the development needs: a partial
ratio is a percentage between 0 and 100. -/
def Env.WF (env : Env) : Prop :=
  ∀ a b, env.fuzz a b ≤ 100

/-! ### Cells, columns and frames -/

/-- A pandas cell.  Raw input tables use `na` (missing) and `str` cells;
the standardizer produces `num` and `dt` cells. -/
inductive Cell where
  | na : Cell
  | str (s : String) : Cell
  | num (q : ℚ) : Cell
  | dt (d : ℤ) : Cell
deriving DecidableEq

/-- Is this cell missing?  (`pd.isna`). -/
def Cell.isNa : Cell → Bool
  | Cell.na => true
  | _ => false

/-- Python `str()` of a cell, as used by `astype(str)`: a missing float
renders as the literal string `"nan"`. -/
def Cell.pyStr (env : Env) : Cell → String
  | Cell.na => "nan"
  | Cell.str s => s
  | Cell.num q => env.showNum q
  | Cell.dt d => env.showDt d

/-- `series.dropna()`. -/
def nonNullCells (l : List Cell) : List Cell :=
  l.filter (fun c => !c.isNa)

/-- The string cleaning of `_attempt_numeric`: drop `,` and `$`, turn
`(` into `-`, drop `)` (the three replacements act on disjoint
characters, so one pass is equivalent to the sequence of replacements in the code). -/
def cleanAmountStr (s : String) : String :=
  String.mk (s.data.filterMap (fun c =>
    if c = ',' ∨ c = '$' then none
    else if c = '(' then some '-'
    else if c = ')' then none
    else some c))

/-- Fraction of entries that are present: `series.notna().mean()`, with
the `if len(...) else 0.0` guard of the code. -/
def fracSome {α : Type} (l : List (Option α)) : ℚ :=
  if l.length = 0 then 0 else (l.countP Option.isSome : ℚ) / l.length

/-- `_attempt_numeric`: stringify every cell, clean it, coerce it, and
return the coerced column together with the success ratio. -/
def attemptNumeric (env : Env) (l : List Cell) : List (Option ℚ) × ℚ :=
  let parsed := l.map (fun c => env.toNumeric (cleanAmountStr (c.pyStr env)))
  (parsed, fracSome parsed)

/-- `pd.to_datetime(errors="coerce")` on one cell: missing stays missing,
timestamps pass through, strings and numerics go to the oracle. -/
def cellDatetime (env : Env) : Cell → Option ℤ
  | Cell.na => none
  | Cell.str s => env.toDatetime s
  | Cell.num q => env.numToDatetime q
  | Cell.dt d => some d

/-- `_attempt_datetime`: coerce every cell to a timestamp and return the
coerced column together with the success ratio. -/
def attemptDatetime (env : Env) (l : List Cell) : List (Option ℤ) × ℚ :=
  let parsed := l.map (cellDatetime env)
  (parsed, fracSome parsed)

/-- A dataframe: an ordered list of named columns. -/
structure Frame where
  cols : List (String × List Cell)
deriving DecidableEq

/-- `df[name]`, defaulting to an empty column when absent (the code only
reads columns it knows exist). -/
def Frame.getColD (f : Frame) (n : String) : List Cell :=
  (((f.cols.find? (fun c => c.1 == n)).map Prod.snd).getD [])

/-- `df[name] = v`: replace the values of every column called `n`. -/
def Frame.setCol (f : Frame) (n : String) (v : List Cell) : Frame :=
  ⟨f.cols.map (fun c => if c.1 == n then (c.1, v) else c)⟩

/-- `len(df)`: the row count (all columns of a pandas frame share it). -/
def Frame.nRows (f : Frame) : ℕ :=
  match f.cols with
  | [] => 0
  | c :: _ => c.2.length

/-! ### Target roles and the name-based scoring signals -/

/-- The three canonical roles (`TARGET_COLUMNS`). -/
inductive Role where
  | customerId : Role
  | transactionDate : Role
  | transactionAmount : Role
deriving DecidableEq

/-- The canonical column name of a role. -/
def roleName : Role → String
  | Role.customerId => "CustomerID"
  | Role.transactionDate => "TransactionDate"
  | Role.transactionAmount => "TransactionAmount"

/-- `TARGET_COLUMNS`, in source order. -/
def TARGET_ROLES : List Role :=
  [Role.customerId, Role.transactionDate, Role.transactionAmount]

/-- `NAME_KEYWORDS`. -/
def NAME_KEYWORDS : Role → List String
  | Role.customerId =>
    ["customer id", "customer", "client", "user", "buyer", "account",
     "member", "subscriber"]
  | Role.transactionDate =>
    ["transaction date", "date", "order date", "purchase", "invoice",
     "timestamp", "datetime", "sale date"]
  | Role.transactionAmount =>
    ["amount", "revenue", "sales", "total", "spend", "value", "price",
     "payment", "monetary", "charge"]

/-- `MIN_INFERENCE_SCORE`. -/
def MIN_INFERENCE_SCORE : ℚ := 0.55

/-- `NEGATIVE_AMOUNT_KEYWORDS` (note that the source tuple contains
`"unit"` in addition to `"units"`). -/
def NEGATIVE_AMOUNT_KEYWORDS : List String :=
  ["quantity", "qty", "count", "units", "unit", "volume"]

/-- The `REGEX_HINTS` patterns for `CustomerID`: `cust(omer)?[_-]?id`,
`client[_-]?id`, `account[_-]?id`, `user[_-]?id`, each searched anywhere
in the lower-cased name.  Expanding the optional groups turns each
pattern into a finite set of substrings. -/
def regexHintCustomerId (s : String) : Bool :=
  ["custid", "cust_id", "cust-id", "customerid", "customer_id", "customer-id",
   "clientid", "client_id", "client-id", "accountid", "account_id", "account-id",
   "userid", "user_id", "user-id"].any (fun p => strContains s p)

/-- The `REGEX_HINTS` patterns for `TransactionDate`:
`(trans|order|sale|purchase|invoice).*date`, `date$`, `timestamp`. -/
def regexHintDate (s : String) : Bool :=
  (["trans", "order", "sale", "purchase", "invoice"].any
      (fun k => seqThen s.data k.data "date".data))
  || "date".data.isSuffixOf s.data
  || strContains s "timestamp"

/-- The `REGEX_HINTS` patterns for `TransactionAmount`:
`(sales|revenue|total|amount|spend|value|charge)`, `(net|gross).*amount`,
`payment`. -/
def regexHintAmount (s : String) : Bool :=
  (["sales", "revenue", "total", "amount", "spend", "value", "charge"].any
      (fun k => strContains s k))
  || (["net", "gross"].any (fun k => seqThen s.data k.data "amount".data))
  || strContains s "payment"

/-- `_regex_bonus`: a fixed 0.4 bonus when any pattern of the role
matches the lower-cased raw column name. -/
def regexBonus (name : String) (t : Role) : ℚ :=
  let cleaned := lowerStr name
  if (match t with
      | Role.customerId => regexHintCustomerId cleaned
      | Role.transactionDate => regexHintDate cleaned
      | Role.transactionAmount => regexHintAmount cleaned) then 0.4 else 0

/-- `_name_similarity_score`: the maximum partial-ratio (scaled to
`[0,1]`) between the normalised column name and the keywords of the role. -/
def nameSimilarity (env : Env) (name : String) (t : Role) : ℚ :=
  (NAME_KEYWORDS t).foldl
    (fun m kw =>
      let r : ℚ := (env.fuzz (normaliseColumnName name) kw : ℚ) / 100
      if m < r then r else m) 0

/-! ### Per-role distribution scorers -/

/-- A `ColumnScore`: column name, confidence, explanation components. -/
structure ColumnScore where
  column : String
  score : ℚ
  components : List (String × ℚ)
deriving DecidableEq

/-- `_score_customer_id`. -/
def scoreCustomerId (env : Env) (name : String) (series : List Cell) : ColumnScore :=
  let nn := nonNullCells series
  if nn = [] then ⟨name, 0, [("non_null_ratio", 0)]⟩
  else
    let nameScore := nameSimilarity env name Role.customerId
    let regexScore := regexBonus name Role.customerId
    let rUnique : ℚ := (nn.dedup.length : ℚ) / (max nn.length 1 : ℕ)
    let rNumeric := (attemptNumeric env nn).2
    let score0 := min 0.3 (nameScore * 0.3) + regexScore
    let score1 := score0 + min rUnique 1 * 0.5
    let score2 := if 0.9 < rNumeric ∧ rUnique < 0.3 then score1 * 0.6 else score1
    ⟨name, min score2 1,
      [("name_similarity", round3 nameScore), ("regex_bonus", round3 regexScore),
       ("unique_ratio", round3 rUnique), ("numeric_ratio", round3 rNumeric)]⟩

/-- `_score_transaction_date`. -/
def scoreTransactionDate (env : Env) (name : String) (series : List Cell) : ColumnScore :=
  let nn := nonNullCells series
  if nn = [] then ⟨name, 0, [("non_null_ratio", 0)]⟩
  else
    let nameScore := nameSimilarity env name Role.transactionDate
    let regexScore := regexBonus name Role.transactionDate
    let rValid := (attemptDatetime env nn).2
    let rNumeric := (attemptNumeric env nn).2
    let score0 := min 0.3 (nameScore * 0.3) + regexScore
    let score1 :=
      if 0.7 ≤ rValid then score0 + 0.6
      else if 0.4 ≤ rValid then score0 + 0.35
      else score0
    let score2 := if 0.8 < rNumeric ∧ rValid < 0.4 then score1 * 0.5 else score1
    ⟨name, min score2 1,
      [("name_similarity", round3 nameScore), ("regex_bonus", round3 regexScore),
       ("valid_datetime_ratio", round3 rValid)]⟩

/-- `_score_transaction_amount`. -/
def scoreTransactionAmount (env : Env) (name : String) (series : List Cell) : ColumnScore :=
  let nn := nonNullCells series
  if nn = [] then ⟨name, 0, [("non_null_ratio", 0)]⟩
  else
    let nameScore := nameSimilarity env name Role.transactionAmount
    let regexScore := regexBonus name Role.transactionAmount
    let numeric := (attemptNumeric env nn).1
    let rValid := (attemptNumeric env nn).2
    let score0 := min 0.3 (nameScore * 0.3) + regexScore
    let score1 :=
      if 0.7 ≤ rValid then score0 + 0.6
      else if 0.5 ≤ rValid then score0 + 0.4
      else score0
    let parsedVals := numeric.filterMap id
    let rPositive : ℚ :=
      if parsedVals = [] then 0
      else (parsedVals.countP (fun q => 0 < q) : ℚ) / parsedVals.length
    let score2 :=
      if 0 < rValid ∧ 0.7 ≤ rPositive then score1 + 0.1 else score1
    let rDate := (attemptDatetime env nn).2
    let score3 := if 0.4 < rDate ∧ rValid < 0.5 then score2 * 0.4 else score2
    let cleanedName := normaliseColumnName name
    let score4 :=
      if NEGATIVE_AMOUNT_KEYWORDS.any (fun k => strContains cleanedName k)
      then score3 * 0.5 else score3
    ⟨name, min score4 1,
      ("name_similarity", round3 nameScore) ::
      ("regex_bonus", round3 regexScore) ::
      ("valid_numeric_ratio", round3 rValid) ::
      (if 0 < rValid then [("positive_ratio", round3 rPositive)] else [])⟩

/-- `SCORERS`: dispatch a role to its scorer. -/
def scoreFor : Role → Env → String → List Cell → ColumnScore
  | Role.customerId => scoreCustomerId
  | Role.transactionDate => scoreTransactionDate
  | Role.transactionAmount => scoreTransactionAmount

/-! ### The greedy role-assignment resolver (`infer_schema`) -/

/-- The candidate list `scores[target]`: one score per column of the
frame, in column order. -/
def scoresFor (env : Env) (df : Frame) (t : Role) : List ColumnScore :=
  df.cols.map (fun c => scoreFor t env c.1 c.2)

/-- Python `max(l, default=d)`. -/
def listMaxD (l : List ℚ) (d : ℚ) : ℚ :=
  match l with
  | [] => d
  | x :: xs => xs.foldl max x

/-- The best available score of a role across all columns
(`max((s.score for s in scores[target]), default=0.0)`). -/
def bestScore (env : Env) (df : Frame) (t : Role) : ℚ :=
  listMaxD ((scoresFor env df t).map (fun c => c.score)) 0

/-- Candidate order used inside the greedy scan of a role: score descending.
`List.insertionSort` with this relation is a stable descending sort,
matching the Python `sorted(..., key=score, reverse=True)`. -/
def scoreGe (c d : ColumnScore) : Prop := d.score ≤ c.score

instance : DecidableRel scoreGe := fun c d => inferInstanceAs (Decidable (d.score ≤ c.score))

instance : IsTotal ColumnScore scoreGe := ⟨fun a b => (le_total b.score a.score)⟩

instance : IsTrans ColumnScore scoreGe := ⟨fun _ _ _ hab hbc => le_trans hbc hab⟩

/-- `sorted(scores[target], key=lambda c: c.score, reverse=True)`. -/
def sortCandidates (l : List ColumnScore) : List ColumnScore :=
  List.insertionSort scoreGe l

/-- Role order used by the resolver: best available score descending. -/
def roleGe (env : Env) (df : Frame) (a b : Role) : Prop :=
  bestScore env df b ≤ bestScore env df a

instance (env : Env) (df : Frame) : DecidableRel (roleGe env df) :=
  fun a b => inferInstanceAs (Decidable (bestScore env df b ≤ bestScore env df a))

instance (env : Env) (df : Frame) : IsTotal Role (roleGe env df) :=
  ⟨fun a b => le_total (bestScore env df b) (bestScore env df a)⟩

instance (env : Env) (df : Frame) : IsTrans Role (roleGe env df) :=
  ⟨fun _ _ _ hab hbc => le_trans hbc hab⟩

/-- `sorted(TARGET_COLUMNS, key=best score, reverse=True)` — the stable
descending role order of the resolver. -/
def targetOrder (env : Env) (df : Frame) : List Role :=
  List.insertionSort (roleGe env df) TARGET_ROLES

/-- The body of the per-role candidate scan: skip candidates whose column
is already used, assign the first remaining candidate whose score meets
the threshold. -/
def pick (minScore : ℚ) (used : List String) : List ColumnScore → Option ColumnScore
  | [] => none
  | c :: cs =>
    if c.column ∈ used then pick minScore used cs
    else if minScore ≤ c.score then some c
    else pick minScore used cs

/-- The mutable state of the resolver: the mapping built so far and the set of
used source columns. -/
structure GState where
  mapping : Role → Option String
  used : List String

/-- The initial resolver state. -/
def initGState : GState := ⟨fun _ => none, []⟩

/-- One iteration of the outer loop of the resolver for role `t`. -/
def greedyStep (env : Env) (df : Frame) (minScore : ℚ) (st : GState) (t : Role) : GState :=
  match pick minScore st.used (sortCandidates (scoresFor env df t)) with
  | some c =>
    ⟨fun u => if u = t then some c.column else st.mapping u, c.column :: st.used⟩
  | none => st

/-- Run the outer loop of the resolver over a role order. -/
def greedyRun (env : Env) (df : Frame) (minScore : ℚ) (order : List Role) (st : GState) : GState :=
  order.foldl (greedyStep env df minScore) st

/-- The state after the full greedy pass of `infer_schema`. -/
def greedyResult (env : Env) (df : Frame) (minScore : ℚ) : GState :=
  greedyRun env df minScore (targetOrder env df) initGState

/-- `missing_targets`: the unmapped roles, in `TARGET_COLUMNS` order. -/
def missingOf (env : Env) (df : Frame) (minScore : ℚ) : List Role :=
  TARGET_ROLES.filter (fun t => ((greedyResult env df minScore).mapping t).isNone)

/-! ### The failure reporter -/

/-- One suggestion of the failure reporter: best candidate column, its
rounded score, and its component breakdown. -/
structure Suggestion where
  best_column : String
  score : ℚ
  components : List (String × ℚ)
deriving DecidableEq

/-- The `SchemaInferenceError` payload: the message and the
`details["suggestions"]` mapping, keyed by canonical role name. -/
structure SchemaInferenceError where
  message : String
  suggestions : List (String × Option Suggestion)
deriving DecidableEq

/-- The suggestion built for one missing role: the head of the
score-descending candidate list, if any candidates exist. -/
def suggestFor (l : List ColumnScore) : Option Suggestion :=
  match sortCandidates l with
  | [] => none
  | top :: _ => some ⟨top.column, round3 top.score, top.components⟩

/-- Python `", ".join(l)`. -/
def joinComma : List String → String
  | [] => ""
  | [x] => x
  | x :: y :: ys => x ++ ", " ++ joinComma (y :: ys)

/-- The error raised when roles are missing. -/
def mkError (missing : List Role) (scores : Role → List ColumnScore) : SchemaInferenceError :=
  ⟨"Unable to infer required columns: " ++ joinComma (missing.map roleName)
      ++ ". Please rename the relevant fields or supply mapping hints.",
   missing.map (fun t => (roleName t, suggestFor (scores t)))⟩

/-- `infer_schema`: the mapping and the full score table on success, the
typed error otherwise. -/
def inferSchema (env : Env) (df : Frame) (minScore : ℚ) :
    Except SchemaInferenceError ((Role → Option String) × (Role → List ColumnScore)) :=
  if missingOf env df minScore = [] then
    Except.ok ((greedyResult env df minScore).mapping, fun t => scoresFor env df t)
  else
    Except.error (mkError (missingOf env df minScore) (fun t => scoresFor env df t))

/-! ### The standardizer (`infer_and_standardize_rfm`) -/

/-- The first role (in `TARGET_COLUMNS` order) mapped to source column
`n`, used to build the rename map. -/
def roleOfSource (mp : Role → Option String) (n : String) : Option Role :=
  TARGET_ROLES.find? (fun t => mp t == some n)

/-- `df.rename(columns=rename_map)`: mapped source columns take their
canonical role name, other columns are untouched.  (Combined with the
subsequent `.copy()` this produces a fresh frame object.) -/
def renameFrame (f : Frame) (mp : Role → Option String) : Frame :=
  ⟨f.cols.map (fun c =>
    (match roleOfSource mp c.1 with
     | some t => roleName t
     | none => c.1, c.2))⟩

/-- `standardized["CustomerID"].astype(str).str.strip()`. -/
def custColStripped (env : Env) (l : List Cell) : List Cell :=
  l.map (fun c => Cell.str (stripStr (c.pyStr env)))

/-- `standardized.loc[empty_mask, "CustomerID"] = pd.NA`. -/
def custColBlankToNa (l : List Cell) : List Cell :=
  l.map (fun c => if c = Cell.str "" then Cell.na else c)

/-- The parsed date column written back by the standardizer (`NaT` for
failures). -/
def dateColOf (parsed : List (Option ℤ)) : List Cell :=
  parsed.map (fun o =>
    match o with
    | some d => Cell.dt d
    | none => Cell.na)

/-- The filled amount column written back by the standardizer
(`numeric_amounts.fillna(0)`). -/
def amtColOf (parsed : List (Option ℚ)) : List Cell :=
  parsed.map (fun o => Cell.num (o.getD 0))

/-- The renamed copy the standardizer works on. -/
def renamedFrame (df : Frame) (mp : Role → Option String) : Frame :=
  renameFrame df mp

/-- The frame after the `CustomerID` strip write. -/
def stdF1 (env : Env) (df : Frame) (mp : Role → Option String) : Frame :=
  (renamedFrame df mp).setCol "CustomerID"
    (custColStripped env ((renamedFrame df mp).getColD "CustomerID"))

/-- `empty_ids`: the number of blank customer ids after stripping. -/
def blankCount (env : Env) (df : Frame) (mp : Role → Option String) : ℕ :=
  ((stdF1 env df mp).getColD "CustomerID").countP (fun c => c == Cell.str "")

/-- The frame after blanking empty customer ids. -/
def stdF2 (env : Env) (df : Frame) (mp : Role → Option String) : Frame :=
  (stdF1 env df mp).setCol "CustomerID"
    (custColBlankToNa ((stdF1 env df mp).getColD "CustomerID"))

/-- The parsed dates and their coercion ratio. -/
def dateParsed (env : Env) (df : Frame) (mp : Role → Option String) :
    List (Option ℤ) × ℚ :=
  attemptDatetime env ((stdF2 env df mp).getColD "TransactionDate")

/-- The frame after the `TransactionDate` write. -/
def stdF3 (env : Env) (df : Frame) (mp : Role → Option String) : Frame :=
  (stdF2 env df mp).setCol "TransactionDate" (dateColOf (dateParsed env df mp).1)

/-- The parsed amounts and their coercion ratio. -/
def amtParsed (env : Env) (df : Frame) (mp : Role → Option String) :
    List (Option ℚ) × ℚ :=
  attemptNumeric env ((stdF3 env df mp).getColD "TransactionAmount")

/-- The frame after the `TransactionAmount` write: the final standardized
frame. -/
def stdF4 (env : Env) (df : Frame) (mp : Role → Option String) : Frame :=
  (stdF3 env df mp).setCol "TransactionAmount" (amtColOf (amtParsed env df mp).1)

/-- One aggregated warning.  The Python code renders it as the single
string `f"{label}: {count} rows ({percentage:.1f}%)."`; the model keeps
the three pieces of content. -/
structure Warning where
  label : String
  count : ℕ
  percentage : ℚ
deriving DecidableEq

/-- `_summarise_invalid`: no warning when the count is zero, otherwise
count and percentage (with the `if total` guard of the code). -/
def summariseInvalid (label : String) (count total : ℕ) : Option Warning :=
  if count = 0 then none
  else some ⟨label, count, if total = 0 then 0 else (count : ℚ) / total * 100⟩

/-- The diagnostics record of the engine.  `dateRatio` and `amountRatio` model
the `"TransactionDate"` and `"TransactionAmount"` entries of the
`coercion_ratios` summary; `mapping` is source → canonical and
`sourceColumns` canonical → source. -/
structure Diagnostics where
  mapping : List (String × String)
  sourceColumns : List (String × String)
  warnings : List Warning
  dateRatio : ℚ
  amountRatio : ℚ
deriving DecidableEq

/-- The number of unparseable dates. -/
def invalidDates (env : Env) (df : Frame) (mp : Role → Option String) : ℕ :=
  (dateParsed env df mp).1.countP Option.isNone

/-- The number of non-numeric amounts. -/
def invalidAmounts (env : Env) (df : Frame) (mp : Role → Option String) : ℕ :=
  (amtParsed env df mp).1.countP Option.isNone

/-- The diagnostics assembled by `infer_and_standardize_rfm`. -/
def diagnosticsOf (env : Env) (df : Frame) (mp : Role → Option String) : Diagnostics :=
  { mapping :=
      TARGET_ROLES.filterMap (fun t => (mp t).map (fun s => (s, roleName t)))
  , sourceColumns :=
      TARGET_ROLES.filterMap (fun t => (mp t).map (fun s => (roleName t, s)))
  , warnings :=
      [summariseInvalid "Blank CustomerID values detected"
          (blankCount env df mp) (stdF2 env df mp).nRows,
       summariseInvalid "Rows with unparseable TransactionDate"
          (invalidDates env df mp) (stdF3 env df mp).nRows,
       summariseInvalid "Rows with non-numeric TransactionAmount"
          (invalidAmounts env df mp) (stdF4 env df mp).nRows].reduceOption
  , dateRatio := round3 (dateParsed env df mp).2
  , amountRatio := round3 (amtParsed env df mp).2 }

/-- The value-level behaviour of `infer_and_standardize_rfm`. -/
def inferAndStandardize (env : Env) (df : Frame) (minScore : ℚ) :
    Except SchemaInferenceError (Frame × Diagnostics) :=
  (inferSchema env df minScore).map
    (fun p => (stdF4 env df p.1, diagnosticsOf env df p.1))

/-! ### A heap model of `infer_and_standardize_rfm`

Frames live in a heap of Python objects; the caller passes a reference.
The function reads the frame of the caller, allocates one new frame for
`df.rename(...).copy()`, and performs every subsequent column write on
the new reference — mirroring the statement structure of the source. -/

/-- Write through a heap reference (`h[i] := g h[i]`). -/
def hmod (h : List Frame) (i : ℕ) (g : Frame → Frame) : List Frame :=
  h.set i (g ((h.get? i).getD ⟨[]⟩))

/-- The heap-level model of `infer_and_standardize_rfm`: returns the
final heap, the reference of the standardized frame, and the
diagnostics. -/
def inferAndStandardizeHeap (env : Env) (minScore : ℚ)
    (heap : List Frame) (dfRef : ℕ) :
    Except SchemaInferenceError (List Frame × ℕ × Diagnostics) :=
  let df := (heap.get? dfRef).getD ⟨[]⟩
  match inferSchema env df minScore with
  | Except.error e => Except.error e
  | Except.ok (mp, _) =>
    let h1 := heap ++ [renamedFrame df mp]
    let sRef := heap.length
    let h2 := hmod h1 sRef
      (fun f => f.setCol "CustomerID" (custColStripped env (f.getColD "CustomerID")))
    let h3 := hmod h2 sRef
      (fun f => f.setCol "CustomerID" (custColBlankToNa (f.getColD "CustomerID")))
    let h4 := hmod h3 sRef
      (fun f => f.setCol "TransactionDate"
        (dateColOf (attemptDatetime env (f.getColD "TransactionDate")).1))
    let h5 := hmod h4 sRef
      (fun f => f.setCol "TransactionAmount"
        (amtColOf (attemptNumeric env (f.getColD "TransactionAmount")).1))
    Except.ok (h5, sRef, diagnosticsOf env df mp)

/-! ### A concrete oracle and concrete tables for witnesses

`testEnv` realises the library oracles on the literals used by the
witness tables: plain decimal numerals for `pd.to_numeric`, ISO
`YYYY-MM-DD` dates for `pd.to_datetime`, and a partial ratio that is 100
exactly when one string is a substring of the other (the
`fuzzywuzzy.fuzz.partial_ratio` of such a pair is exactly 100; for the
unrelated keyword/name pairs appearing in the witnesses the concrete
sub-100 value is irrelevant and is taken to be 0).  `showNum`/`showDt`
are never reached on the raw (string-celled) witness tables. -/

/-- Numeric value of a digit string. -/
def digitsNat (l : List Char) : ℕ :=
  l.foldl (fun a c => a * 10 + (c.toNat - 48)) 0

/-- Parse an unsigned decimal numeral (`"10"`, `"10.5"`, `".5"`). -/
def parseUnsignedDec (l : List Char) : Option ℚ :=
  match l.splitOn '.' with
  | [ip] =>
    if ip ≠ [] ∧ ip.all Char.isDigit then some ((digitsNat ip : ℚ)) else none
  | [ip, fp] =>
    if (ip ≠ [] ∨ fp ≠ []) ∧ ip.all Char.isDigit ∧ fp.all Char.isDigit then
      some ((digitsNat ip : ℚ) + (digitsNat fp : ℚ) / (10 : ℚ) ^ fp.length)
    else none
  | _ => none

/-- Parse an optionally signed decimal numeral: the fragment of
`pd.to_numeric` exercised by the witness tables. -/
def parseDecimal (s : String) : Option ℚ :=
  match s.data with
  | '-' :: rest => (parseUnsignedDec rest).map Neg.neg
  | l => parseUnsignedDec l

/-- Parse an ISO `YYYY-MM-DD` date to an abstract timestamp code: the
fragment of `pd.to_datetime` exercised by the witness tables. -/
def parseIsoDate (s : String) : Option ℤ :=
  match s.data.splitOn '-' with
  | [y, m, d] =>
    if y.length = 4 ∧ m.length = 2 ∧ d.length = 2 ∧
        y.all Char.isDigit ∧ m.all Char.isDigit ∧ d.all Char.isDigit then
      some ((digitsNat y : ℤ) * 10000 + (digitsNat m : ℤ) * 100 + (digitsNat d : ℤ))
    else none
  | _ => none

/-- The concrete oracle used by the witnesses. -/
def testEnv : Env :=
  { fuzz := fun a b =>
      if containsChars a.data b.data ∨ containsChars b.data a.data then 100 else 0
  , toNumeric := parseDecimal
  , toDatetime := parseIsoDate
  , numToDatetime := fun _ => none
  , showNum := fun _ => ""
  , showDt := fun _ => "" }

/-- A well-behaved three-column table: obvious names, clean values. -/
def exampleFrame : Frame :=
  ⟨[("customer_id", [Cell.str "c1", Cell.str "c2", Cell.str "c3"]),
    ("order_date",
      [Cell.str "2023-01-11", Cell.str "2023-02-15", Cell.str "2023-03-20"]),
    ("amount", [Cell.str "10.5", Cell.str "20.5", Cell.str "30.5"])]⟩

/-- A table with no amount-like column: inference must fail. -/
def twoColFrame : Frame :=
  ⟨[("customer_id", [Cell.str "c1", Cell.str "c2", Cell.str "c3"]),
    ("order_date",
      [Cell.str "2023-01-11", Cell.str "2023-02-15", Cell.str "2023-03-20"])]⟩

/-- Like `exampleFrame`, but with one missing customer id. -/
def naFrame : Frame :=
  ⟨[("customer_id", [Cell.str "c1", Cell.na, Cell.str "c3"]),
    ("order_date",
      [Cell.str "2023-01-11", Cell.str "2023-02-15", Cell.str "2023-03-20"]),
    ("amount", [Cell.str "10.5", Cell.str "20.5", Cell.str "30.5"])]⟩

/-- Like `exampleFrame`, but with one non-numeric amount cell. -/
def badAmtFrame : Frame :=
  ⟨[("customer_id", [Cell.str "c1", Cell.str "c2", Cell.str "c3"]),
    ("order_date",
      [Cell.str "2023-01-11", Cell.str "2023-02-15", Cell.str "2023-03-20"]),
    ("amount", [Cell.str "10.5", Cell.str "abc", Cell.str "30.5"])]⟩

/-- Five values of which exactly four (80%) are numeric and none is a
date. -/
def c4vals : List Cell :=
  [Cell.str "10.5", Cell.str "11.5", Cell.str "12.5", Cell.str "13.5",
   Cell.str "abc"]

/-- Ten values of which exactly nine (90%) are numeric, with two distinct
values (uniqueness 0.2). -/
def c5vals : List Cell :=
  [Cell.str "1", Cell.str "1", Cell.str "1", Cell.str "1", Cell.str "1",
   Cell.str "1", Cell.str "1", Cell.str "1", Cell.str "1", Cell.str "abc"]

/-- Three clean positive numeric values. -/
def c6vals : List Cell :=
  [Cell.str "10.5", Cell.str "11.5", Cell.str "12.5"]

/-! ### Closed-form score formulas

These restate the accumulation in the three scorers as one closed
formula each, so that the spec sentences about additive contributions
and multiplicative penalties can be compared against the code.  The
`claimed...` variants follow the exact wording of the spec claims where
it differs from the code (a non-strict penalty threshold, a shorter
negative-keyword list); the unsuffixed variants follow the code. -/

/-- The combined name-evidence contribution: capped fuzzy part plus
regex bonus. -/
def nameContrib (env : Env) (name : String) (t : Role) : ℚ :=
  min 0.3 (nameSimilarity env name t * 0.3) + regexBonus name t

/-- The additive date-parse contribution of `_score_transaction_date`. -/
def dateAddOf (r : ℚ) : ℚ :=
  if 0.7 ≤ r then 0.6 else if 0.4 ≤ r then 0.35 else 0

/-- The additive numeric-parse contribution of
`_score_transaction_amount`. -/
def amtAddOf (r : ℚ) : ℚ :=
  if 0.7 ≤ r then 0.6 else if 0.5 ≤ r then 0.4 else 0

/-- The fraction of parsed values that are strictly positive. -/
def positiveFrac (parsed : List (Option ℚ)) : ℚ :=
  let pv := parsed.filterMap id
  if pv = [] then 0 else (pv.countP (fun q => 0 < q) : ℚ) / pv.length

/-- The uniqueness ratio of `_score_customer_id`. -/
def uniqueFrac (nn : List Cell) : ℚ :=
  (nn.dedup.length : ℚ) / (max nn.length 1 : ℕ)

/-- Closed form of the `TransactionDate` score as the code computes it:
the penalty fires when the column is strictly more than 80 percent
numeric and less than 40 percent date-parseable. -/
def dateScoreClosed (env : Env) (name : String) (series : List Cell) : ℚ :=
  let nn := nonNullCells series
  let vr := (attemptDatetime env nn).2
  let nr := (attemptNumeric env nn).2
  min ((nameContrib env name Role.transactionDate + dateAddOf vr) *
        (if 0.8 < nr ∧ vr < 0.4 then 0.5 else 1)) 1

/-- The `TransactionDate` score as claim C4 words it: the penalty
condition read as at least 80 percent numeric (non-strict). -/
def claimedDateScoreC4 (env : Env) (name : String) (series : List Cell) : ℚ :=
  let nn := nonNullCells series
  let vr := (attemptDatetime env nn).2
  let nr := (attemptNumeric env nn).2
  min ((nameContrib env name Role.transactionDate + dateAddOf vr) *
        (if 0.8 ≤ nr ∧ vr < 0.4 then 0.5 else 1)) 1

/-- Closed form of the `CustomerID` score as the code computes it: the
penalty fires when the column is strictly more than 90 percent numeric
with uniqueness below 0.3. -/
def custScoreClosed (env : Env) (name : String) (series : List Cell) : ℚ :=
  let nn := nonNullCells series
  let nr := (attemptNumeric env nn).2
  min ((nameContrib env name Role.customerId + min (uniqueFrac nn) 1 * 0.5) *
        (if 0.9 < nr ∧ uniqueFrac nn < 0.3 then 0.6 else 1)) 1

/-- The `CustomerID` score as claim C5 words it: the penalty condition
read as at least 90 percent numeric (non-strict). -/
def claimedCustScoreC5 (env : Env) (name : String) (series : List Cell) : ℚ :=
  let nn := nonNullCells series
  let nr := (attemptNumeric env nn).2
  min ((nameContrib env name Role.customerId + min (uniqueFrac nn) 1 * 0.5) *
        (if 0.9 ≤ nr ∧ uniqueFrac nn < 0.3 then 0.6 else 1)) 1

/-- The keyword penalty factor applied to an amount score for a given
negative-keyword list. -/
def kwPenaltyOf (name : String) (kws : List String) : ℚ :=
  if kws.any (fun k => strContains (normaliseColumnName name) k) then 0.5 else 1

/-- Closed form of the `TransactionAmount` score as the code computes
it, with the full source keyword list (including `"unit"`). -/
def amtScoreClosed (env : Env) (name : String) (series : List Cell) : ℚ :=
  let nn := nonNullCells series
  let vr := (attemptNumeric env nn).2
  let pr := positiveFrac (attemptNumeric env nn).1
  let dr := (attemptDatetime env nn).2
  min (((nameContrib env name Role.transactionAmount + amtAddOf vr +
          (if 0 < vr ∧ 0.7 ≤ pr then 0.1 else 0)) *
         (if 0.4 < dr ∧ vr < 0.5 then 0.4 else 1)) *
        kwPenaltyOf name NEGATIVE_AMOUNT_KEYWORDS) 1

/-- The `TransactionAmount` score as claim C6 words it: the keyword
penalty driven only by `quantity, qty, count, units, volume` (without
`"unit"`). -/
def claimedAmtScoreC6 (env : Env) (name : String) (series : List Cell) : ℚ :=
  let nn := nonNullCells series
  let vr := (attemptNumeric env nn).2
  let pr := positiveFrac (attemptNumeric env nn).1
  let dr := (attemptDatetime env nn).2
  min (((nameContrib env name Role.transactionAmount + amtAddOf vr +
          (if 0 < vr ∧ 0.7 ≤ pr then 0.1 else 0)) *
         (if 0.4 < dr ∧ vr < 0.5 then 0.4 else 1)) *
        kwPenaltyOf name ["quantity", "qty", "count", "units", "volume"]) 1

/-! ### Auxiliary predicates and conclusion records for the claims -/

/-- Substring relation on strings, stated over the character lists. -/
def StrContains (s pat : String) : Prop :=
  ∃ a b : List Char, s.data = a ++ pat.data ++ b

/-- The prefix of a role list strictly before the first occurrence of
`t`. -/
def takeUntil (t : Role) (l : List Role) : List Role :=
  l.takeWhile (fun x => decide (x ≠ t))

/-- The columns consumed by the resolver before it processes role `t`. -/
def usedBefore (env : Env) (df : Frame) (minScore : ℚ) (t : Role) : List String :=
  (greedyRun env df minScore (takeUntil t (targetOrder env df)) initGState).used

/-- Invariant of the resolver state: every assigned column is marked
used, and no column is assigned to two roles. -/
def GInv (st : GState) : Prop :=
  (∀ t c, st.mapping t = some c → c ∈ st.used) ∧
  (∀ t₁ t₂ c, st.mapping t₁ = some c → st.mapping t₂ = some c → t₁ = t₂)

/-- Invariant of the resolver state relative to a frame: every assigned
column is a column of the frame. -/
def GSrc (df : Frame) (st : GState) : Prop :=
  ∀ t s, st.mapping t = some s → ∃ v, (s, v) ∈ df.cols

/-- The raw (pre-standardization) `CustomerID` column of the renamed
frame. -/
def custColRaw (df : Frame) (mp : Role → Option String) : List Cell :=
  (renamedFrame df mp).getColD "CustomerID"

/-- Conclusion of claim C1: every column is scored for every role, the
roles are processed in descending order of their best available score,
and each role receives a used-free candidate of maximal score among the
candidates not yet consumed when the role is processed, subject to the
minimum-confidence threshold. -/
def C1Concl (env : Env) (df : Frame)
    (mp : Role → Option String) (sc : Role → List ColumnScore) : Prop :=
  (∀ t, (sc t).map (fun c => c.column) = df.cols.map Prod.fst) ∧
  (targetOrder env df).Perm TARGET_ROLES ∧
  (targetOrder env df).Sorted (roleGe env df) ∧
  (∀ t : Role, ∃ c,
    c ∈ sc t ∧
    mp t = some c.column ∧
    MIN_INFERENCE_SCORE ≤ c.score ∧
    c.column ∉ usedBefore env df MIN_INFERENCE_SCORE t ∧
    ∀ d ∈ sc t, d.column ∉ usedBefore env df MIN_INFERENCE_SCORE t →
      d.score ≤ c.score)

/-- Conclusion of claim C2: on an unresolvable table, `infer_schema`
raises the typed error whose message names every unmapped role and whose
suggestions carry, per unmapped role, either nothing (exactly when the
table has no columns) or the best-scoring candidate with its rounded
score and components. -/
def C2Concl (env : Env) (df : Frame) : Prop :=
  inferSchema env df MIN_INFERENCE_SCORE =
    Except.error (mkError (missingOf env df MIN_INFERENCE_SCORE)
      (fun t => scoresFor env df t)) ∧
  missingOf env df MIN_INFERENCE_SCORE ≠ [] ∧
  (∀ t : Role, t ∈ missingOf env df MIN_INFERENCE_SCORE ↔
    (greedyResult env df MIN_INFERENCE_SCORE).mapping t = none) ∧
  (∀ t ∈ missingOf env df MIN_INFERENCE_SCORE,
    StrContains (mkError (missingOf env df MIN_INFERENCE_SCORE)
      (fun t => scoresFor env df t)).message (roleName t)) ∧
  (mkError (missingOf env df MIN_INFERENCE_SCORE)
      (fun t => scoresFor env df t)).suggestions =
    (missingOf env df MIN_INFERENCE_SCORE).map
      (fun t => (roleName t, suggestFor (scoresFor env df t))) ∧
  (∀ t ∈ missingOf env df MIN_INFERENCE_SCORE,
    (suggestFor (scoresFor env df t) = none ↔ df.cols = [])) ∧
  (∀ t ∈ missingOf env df MIN_INFERENCE_SCORE, ∀ s,
    suggestFor (scoresFor env df t) = some s →
    ∃ top, top ∈ scoresFor env df t ∧
      s.best_column = top.column ∧ s.score = round3 top.score ∧
      s.components = top.components ∧
      ∀ c ∈ scoresFor env df t, c.score ≤ top.score)

/-- Conclusion of claim C8: unparseable amounts become 0 (none are
dropped), they are reported in one aggregate count/percentage warning,
and the parse ratio is recorded in the coercion summary. -/
def C8Concl (env : Env) (df : Frame) (mp : Role → Option String) : Prop :=
  (stdF4 env df mp).getColD "TransactionAmount" = amtColOf (amtParsed env df mp).1 ∧
  ((stdF4 env df mp).getColD "TransactionAmount").length =
    ((stdF3 env df mp).getColD "TransactionAmount").length ∧
  (∀ i, (amtParsed env df mp).1.get? i = some none →
    ((stdF4 env df mp).getColD "TransactionAmount").get? i = some (Cell.num 0)) ∧
  (diagnosticsOf env df mp).amountRatio = round3 (amtParsed env df mp).2 ∧
  (diagnosticsOf env df mp).warnings.countP
      (fun w => w.label == "Rows with non-numeric TransactionAmount") =
    (if invalidAmounts env df mp = 0 then 0 else 1) ∧
  (∀ w ∈ (diagnosticsOf env df mp).warnings,
    w.label = "Rows with non-numeric TransactionAmount" →
    w.count = invalidAmounts env df mp ∧
    w.percentage = (if (stdF4 env df mp).nRows = 0 then 0
      else (invalidAmounts env df mp : ℚ) / (stdF4 env df mp).nRows * 100))

/-- Conclusion of claim C9: the standardized frame is a fresh object and
the frame of the caller is untouched by the call. -/
def C9Concl (heap hq : List Frame) (dfRef sRef : ℕ) : Prop :=
  sRef = heap.length ∧ dfRef ≠ sRef ∧ hq.get? dfRef = heap.get? dfRef

/-- Conclusion of claim C10: a missing source customer id becomes the
literal string `"nan"`, is not set back to missing, and is not counted
as blank; exactly the values that strip to the empty string become
missing. -/
def C10Concl (env : Env) (df : Frame) (mp : Role → Option String) (i : ℕ) : Prop :=
  ((stdF4 env df mp).getColD "CustomerID").get? i = some (Cell.str "nan") ∧
  (∀ j c, (custColRaw df mp).get? j = some c →
    (((stdF4 env df mp).getColD "CustomerID").get? j = some Cell.na ↔
      stripStr (c.pyStr env) = "")) ∧
  blankCount env df mp =
    (custColRaw df mp).countP (fun c => stripStr (c.pyStr env) == "") ∧
  stripStr (Cell.na.pyStr env) = "nan"

/-! ### Concrete values for witnesses -/

/-- The mapping inferred on `exampleFrame`. -/
def exMapping : Role → Option String :=
  (greedyResult testEnv exampleFrame MIN_INFERENCE_SCORE).mapping

/-- The mapping inferred on `naFrame`. -/
def naMapping : Role → Option String :=
  (greedyResult testEnv naFrame MIN_INFERENCE_SCORE).mapping

/-- The mapping inferred on `badAmtFrame`. -/
def badAmtMapping : Role → Option String :=
  (greedyResult testEnv badAmtFrame MIN_INFERENCE_SCORE).mapping

/-- The final heap of the heap-model run on `[exampleFrame]`. -/
def exHeapOut : List Frame :=
  match inferAndStandardizeHeap testEnv MIN_INFERENCE_SCORE [exampleFrame] 0 with
  | Except.ok r => r.1
  | Except.error _ => []

/-- The standardized-frame reference of the heap-model run on
`[exampleFrame]`. -/
def exRefOut : ℕ :=
  match inferAndStandardizeHeap testEnv MIN_INFERENCE_SCORE [exampleFrame] 0 with
  | Except.ok r => r.2.1
  | Except.error _ => 0

/-- The diagnostics of the heap-model run on `[exampleFrame]`. -/
def exDiagOut : Diagnostics :=
  match inferAndStandardizeHeap testEnv MIN_INFERENCE_SCORE [exampleFrame] 0 with
  | Except.ok r => r.2.2
  | Except.error _ => ⟨[], [], [], 0, 0⟩

/-! ## Theorems -/

set_option maxRecDepth 100000

/-! ### Rounding bounds -/

theorem floor_le_rhe (q : ℚ) : ⌊q⌋ ≤ rhe q := by
  unfold rhe
  dsimp only
  split_ifs <;> omega

theorem rhe_le_ceil (q : ℚ) : rhe q ≤ ⌈q⌉ := by
  unfold rhe
  dsimp only
  split_ifs with h1 h2 h3
  · have hq : (⌊q⌋ : ℚ) < q := by linarith
    exact Int.add_one_le_iff.mpr (Int.lt_ceil.mpr hq)
  · exact Int.floor_le_ceil q
  · exact Int.floor_le_ceil q
  · have hq : (⌊q⌋ : ℚ) < q := by linarith
    exact Int.add_one_le_iff.mpr (Int.lt_ceil.mpr hq)

theorem round3_nonneg (q : ℚ) (h : 0 ≤ q) : 0 ≤ round3 q := by
  unfold round3
  have h1 : (0 : ℤ) ≤ ⌊q * 1000⌋ := Int.floor_nonneg.mpr (by positivity)
  have h2 : (0 : ℤ) ≤ rhe (q * 1000) := le_trans h1 (floor_le_rhe _)
  apply div_nonneg _ (by norm_num)
  exact_mod_cast h2

theorem round3_le_one (q : ℚ) (h : q ≤ 1) : round3 q ≤ 1 := by
  unfold round3
  have h1 : rhe (q * 1000) ≤ ⌈q * 1000⌉ := rhe_le_ceil _
  have h2 : ⌈q * 1000⌉ ≤ 1000 := Int.ceil_le.mpr (by push_cast; linarith)
  rw [div_le_one (by norm_num)]
  exact_mod_cast le_trans h1 h2

theorem round3_zero : round3 0 = 0 := by with_unfolding_all decide

theorem round3_04 : round3 0.4 = 0.4 := by with_unfolding_all decide

/-! ### Name-similarity bounds -/

theorem simFold_bounds (env : Env) (hwf : Env.WF env) (cleaned : String)
    (kws : List String) (m : ℚ) (h0 : 0 ≤ m) (h1 : m ≤ 1) :
    0 ≤ kws.foldl
        (fun m kw =>
          let r : ℚ := (env.fuzz cleaned kw : ℚ) / 100
          if m < r then r else m) m ∧
      kws.foldl
        (fun m kw =>
          let r : ℚ := (env.fuzz cleaned kw : ℚ) / 100
          if m < r then r else m) m ≤ 1 := by
  induction kws generalizing m with
  | nil => exact ⟨h0, h1⟩
  | cons k ks ih =>
    dsimp only [List.foldl]
    by_cases hr : m < (env.fuzz cleaned k : ℚ) / 100
    · rw [if_pos hr]
      refine ih _ (by positivity) ?_
      have := hwf cleaned k
      rw [div_le_one (by norm_num)]
      exact_mod_cast this
    · rw [if_neg hr]
      exact ih _ h0 h1

theorem nameSimilarity_nonneg (env : Env) (hwf : Env.WF env)
    (name : String) (t : Role) : 0 ≤ nameSimilarity env name t :=
  (simFold_bounds env hwf (normaliseColumnName name) (NAME_KEYWORDS t) 0
    le_rfl (by norm_num)).1

theorem nameSimilarity_le_one (env : Env) (hwf : Env.WF env)
    (name : String) (t : Role) : nameSimilarity env name t ≤ 1 :=
  (simFold_bounds env hwf (normaliseColumnName name) (NAME_KEYWORDS t) 0
    le_rfl (by norm_num)).2

theorem regexBonus_cases (name : String) (t : Role) :
    regexBonus name t = 0 ∨ regexBonus name t = 0.4 := by
  unfold regexBonus
  dsimp only
  split_ifs <;> simp

/-! ### Closed forms of the three scorers -/

theorem scoreTransactionDate_closed (env : Env) (name : String) (series : List Cell)
    (h : nonNullCells series ≠ []) :
    (scoreTransactionDate env name series).score = dateScoreClosed env name series := by
  unfold scoreTransactionDate dateScoreClosed nameContrib dateAddOf
  rw [if_neg h]
  dsimp only
  split_ifs <;> first | rfl | (congr 1; ring)

theorem scoreCustomerId_closed (env : Env) (name : String) (series : List Cell)
    (h : nonNullCells series ≠ []) :
    (scoreCustomerId env name series).score = custScoreClosed env name series := by
  unfold scoreCustomerId custScoreClosed nameContrib uniqueFrac
  rw [if_neg h]
  dsimp only
  split_ifs <;> first | rfl | (congr 1; ring)

theorem scoreTransactionAmount_closed (env : Env) (name : String) (series : List Cell)
    (h : nonNullCells series ≠ []) :
    (scoreTransactionAmount env name series).score = amtScoreClosed env name series := by
  unfold scoreTransactionAmount amtScoreClosed nameContrib amtAddOf positiveFrac kwPenaltyOf
  rw [if_neg h]
  dsimp only
  split_ifs <;> first | rfl | (congr 1; ring)

/-! ### Claim C4 -/

/-- C4, counterexample.  The claim reads the numeric-penalty condition of
`_score_transaction_date` as "at least 80% numeric-parseable"; the code
uses a strict `> 0.8`.  On a column named `mydate` whose five non-missing
values are exactly 80% numeric and 0% dates, the code keeps the full
score 0.7 while the claimed rule would halve it to 0.35. -/
theorem transaction_date_score_claim_refuted :
    (scoreTransactionDate testEnv "mydate" c4vals).score ≠
      claimedDateScoreC4 testEnv "mydate" c4vals := by
  with_unfolding_all decide

/-- C4, amended: for every column with at least one non-missing value the
`TransactionDate` score adds 0.6 when at least 70% of the values parse as
dates, 0.35 when at least 40% do, 0 otherwise, and the accumulated score
is halved exactly when the column is strictly more than 80%
numeric-parseable with a date-parse rate below 40%. -/
theorem transaction_date_score_rule (env : Env) (name : String) (series : List Cell)
    (h : nonNullCells series ≠ []) :
    (scoreTransactionDate env name series).score = dateScoreClosed env name series :=
  scoreTransactionDate_closed env name series h

/-- C4, witness: the amended rule evaluated on the 80%-numeric column. -/
theorem transaction_date_score_rule_witness :
    nonNullCells c4vals ≠ [] ∧
      (scoreTransactionDate testEnv "mydate" c4vals).score =
        dateScoreClosed testEnv "mydate" c4vals :=
  ⟨by with_unfolding_all decide,
   transaction_date_score_rule testEnv "mydate" c4vals (by with_unfolding_all decide)⟩

/-! ### Claim C5 -/

/-- C5, counterexample.  The claim reads the numeric-penalty condition of
`_score_customer_id` as "at least 90% numeric-parseable"; the code uses a
strict `> 0.9`.  On a column of ten values, nine of which are the numeral
`1` (90% numeric, uniqueness 0.2), the code keeps the score 0.1 while the
claimed rule would scale it to 0.06. -/
theorem customer_id_score_claim_refuted :
    (scoreCustomerId testEnv "zz" c5vals).score ≠
      claimedCustScoreC5 testEnv "zz" c5vals := by
  with_unfolding_all decide

/-- C5, amended: for every column with at least one non-missing value the
`CustomerID` score gains the uniqueness ratio (capped at 1) times 0.5,
and the accumulated score is scaled by 0.6 exactly when the column is
strictly more than 90% numeric-parseable with uniqueness below 0.3. -/
theorem customer_id_score_rule (env : Env) (name : String) (series : List Cell)
    (h : nonNullCells series ≠ []) :
    (scoreCustomerId env name series).score = custScoreClosed env name series :=
  scoreCustomerId_closed env name series h

/-- C5, witness: the amended rule evaluated on the 90%-numeric column. -/
theorem customer_id_score_rule_witness :
    nonNullCells c5vals ≠ [] ∧
      (scoreCustomerId testEnv "zz" c5vals).score =
        custScoreClosed testEnv "zz" c5vals :=
  ⟨by with_unfolding_all decide,
   customer_id_score_rule testEnv "zz" c5vals (by with_unfolding_all decide)⟩

/-! ### Claim C6 -/

/-- C6, counterexample.  The claim lists the negative keywords as
`quantity, qty, count, units, volume`, but the source constant
`NEGATIVE_AMOUNT_KEYWORDS` also contains `"unit"`.  The column name
`unit_price` (normalised `unit price`) contains `unit` but none of the
five claimed keywords, so the code halves its score to 0.5 while the
claimed rule keeps 1. -/
theorem transaction_amount_score_claim_refuted :
    (scoreTransactionAmount testEnv "unit_price" c6vals).score ≠
      claimedAmtScoreC6 testEnv "unit_price" c6vals := by
  with_unfolding_all decide

/-- C6, amended: for every column with at least one non-missing value the
`TransactionAmount` score is scaled by 0.4 when the column is a plausible
date (date rate above 40%, numeric rate below 50%) and is halved exactly
when the normalised name contains one of the keywords `quantity, qty,
count, units, unit, volume` (the source list, which includes `unit`). -/
theorem transaction_amount_score_rule (env : Env) (name : String) (series : List Cell)
    (h : nonNullCells series ≠ []) :
    (scoreTransactionAmount env name series).score = amtScoreClosed env name series :=
  scoreTransactionAmount_closed env name series h

/-- C6, witness: the amended rule evaluated on the `unit_price` column. -/
theorem transaction_amount_score_rule_witness :
    nonNullCells c6vals ≠ [] ∧
      (scoreTransactionAmount testEnv "unit_price" c6vals).score =
        amtScoreClosed testEnv "unit_price" c6vals :=
  ⟨by with_unfolding_all decide,
   transaction_amount_score_rule testEnv "unit_price" c6vals (by with_unfolding_all decide)⟩

/-! ### Claim C7 -/

theorem components_lookup_name (env : Env) (name : String) (t : Role)
    (series : List Cell) (h : nonNullCells series ≠ []) :
    (scoreFor t env name series).components.lookup "name_similarity" =
      some (round3 (nameSimilarity env name t)) := by
  cases t <;>
    · simp only [scoreFor, scoreCustomerId, scoreTransactionDate, scoreTransactionAmount]
      rw [if_neg h]
      simp [List.lookup]

theorem components_lookup_regex (env : Env) (name : String) (t : Role)
    (series : List Cell) (h : nonNullCells series ≠ []) :
    (scoreFor t env name series).components.lookup "regex_bonus" =
      some (round3 (regexBonus name t)) := by
  have hb : ("regex_bonus" == "name_similarity") = false := by decide
  cases t <;>
    · simp only [scoreFor, scoreCustomerId, scoreTransactionDate, scoreTransactionAmount]
      rw [if_neg h]
      simp [List.lookup, hb]

/-- C7, counterexample.  The claim says the component map records the
name-similarity sub-score as the capped fuzzy contribution, at most 0.3.
In the source the component records the raw (rounded) fuzzy ratio: for
the column name `customer` scored for `CustomerID`, the recorded value
is 1, which exceeds 0.3 and differs from the capped contribution. -/
theorem components_claim_refuted :
    (scoreFor Role.customerId testEnv "customer" [Cell.str "a"]).components.lookup
        "name_similarity" = some 1 ∧
      ¬ ((1 : ℚ) ≤ 0.3) ∧
      (1 : ℚ) ≠ min 0.3 (nameSimilarity testEnv "customer" Role.customerId * 0.3) := by
  refine ⟨?_, ?_, ?_⟩ <;> with_unfolding_all decide

/-- C7, amended: for every role and every column with at least one
non-missing value, the component map records under `name_similarity` the
rounded raw fuzzy ratio — a value in `[0, 1]` that can exceed 0.3 — and
under `regex_bonus` exactly 0 or 0.4; the capped contribution
`min 0.3 (ratio * 0.3)`, which is what enters the score, is at most
0.3. -/
theorem components_record_rule (env : Env) (hwf : Env.WF env) (name : String)
    (t : Role) (series : List Cell) (h : nonNullCells series ≠ []) :
    (scoreFor t env name series).components.lookup "name_similarity" =
        some (round3 (nameSimilarity env name t)) ∧
      0 ≤ round3 (nameSimilarity env name t) ∧
      round3 (nameSimilarity env name t) ≤ 1 ∧
      (scoreFor t env name series).components.lookup "regex_bonus" =
        some (regexBonus name t) ∧
      (regexBonus name t = 0 ∨ regexBonus name t = 0.4) ∧
      min 0.3 (nameSimilarity env name t * 0.3) ≤ 0.3 := by
  refine ⟨components_lookup_name env name t series h,
    round3_nonneg _ (nameSimilarity_nonneg env hwf name t),
    round3_le_one _ (nameSimilarity_le_one env hwf name t), ?_,
    regexBonus_cases name t, min_le_left _ _⟩
  rw [components_lookup_regex env name t series h]
  rcases regexBonus_cases name t with hr | hr <;> rw [hr]
  · rw [round3_zero]
  · rw [round3_04]

/-! ### Properties of the candidate scan -/

theorem pick_mem {m : ℚ} {u : List String} :
    ∀ {l : List ColumnScore} {c : ColumnScore}, pick m u l = some c →
      c ∈ l ∧ c.column ∉ u ∧ m ≤ c.score := by
  intro l
  induction l with
  | nil => intro c h; simp [pick] at h
  | cons a as ih =>
    intro c h
    simp only [pick] at h
    split_ifs at h with h1 h2
    · obtain ⟨hm, hu, hs⟩ := ih h
      exact ⟨List.mem_cons_of_mem _ hm, hu, hs⟩
    · injection h with h3
      subst h3
      exact ⟨List.mem_cons_self _ _, h1, h2⟩
    · obtain ⟨hm, hu, hs⟩ := ih h
      exact ⟨List.mem_cons_of_mem _ hm, hu, hs⟩

theorem pick_spec_max {m : ℚ} {u : List String} :
    ∀ {l : List ColumnScore} {c : ColumnScore}, List.Sorted scoreGe l →
      pick m u l = some c → ∀ d ∈ l, d.column ∉ u → d.score ≤ c.score := by
  intro l
  induction l with
  | nil => intro c _ h; simp [pick] at h
  | cons a as ih =>
    intro c hs h
    rw [List.sorted_cons] at hs
    obtain ⟨ha, has⟩ := hs
    simp only [pick] at h
    split_ifs at h with h1 h2
    · intro d hd hdu
      rcases List.mem_cons.mp hd with rfl | hd2
      · exact absurd h1 hdu
      · exact ih has h d hd2 hdu
    · injection h with h3
      subst h3
      intro d hd _
      rcases List.mem_cons.mp hd with rfl | hd2
      · exact le_refl _
      · exact ha d hd2
    · intro d hd hdu
      rcases List.mem_cons.mp hd with rfl | hd2
      · have hm := (pick_mem h).2.2
        exact le_of_lt (lt_of_lt_of_le (lt_of_not_le h2) hm)
      · exact ih has h d hd2 hdu

/-! ### Invariants of the resolver -/

theorem ginv_init : GInv initGState := by
  constructor
  · intro t c h; simp [initGState] at h
  · intro t₁ t₂ c h1 _; simp [initGState] at h1

theorem ginv_step {env : Env} {df : Frame} {m : ℚ} {st : GState} {t : Role}
    (hst : GInv st) : GInv (greedyStep env df m st t) := by
  unfold greedyStep
  cases hp : pick m st.used (sortCandidates (scoresFor env df t)) with
  | none => exact hst
  | some c =>
    obtain ⟨_, hnu, _⟩ := pick_mem hp
    obtain ⟨h1, h2⟩ := hst
    constructor
    · intro u x hx
      dsimp only at hx ⊢
      by_cases he : u = t
      · rw [if_pos he] at hx
        injection hx with hx
        rw [← hx]
        exact List.mem_cons_self _ _
      · rw [if_neg he] at hx
        exact List.mem_cons_of_mem _ (h1 u x hx)
    · intro t₁ t₂ x hx1 hx2
      dsimp only at hx1 hx2
      by_cases e1 : t₁ = t <;> by_cases e2 : t₂ = t
      · rw [e1, e2]
      · rw [if_pos e1] at hx1
        rw [if_neg e2] at hx2
        injection hx1 with hx1
        exact absurd (h1 t₂ x hx2) (hx1 ▸ hnu)
      · rw [if_neg e1] at hx1
        rw [if_pos e2] at hx2
        injection hx2 with hx2
        exact absurd (h1 t₁ x hx1) (hx2 ▸ hnu)
      · rw [if_neg e1] at hx1
        rw [if_neg e2] at hx2
        exact h2 t₁ t₂ x hx1 hx2

theorem ginv_run {env : Env} {df : Frame} {m : ℚ} :
    ∀ (order : List Role) (st : GState), GInv st →
      GInv (greedyRun env df m order st) := by
  intro order
  induction order with
  | nil => intro st hst; exact hst
  | cons a as ih => intro st hst; exact ih _ (ginv_step hst)

theorem scoreFor_column (t : Role) (env : Env) (n : String) (v : List Cell) :
    (scoreFor t env n v).column = n := by
  cases t <;>
    · simp only [scoreFor, scoreCustomerId, scoreTransactionDate, scoreTransactionAmount]
      split <;> rfl

theorem gsrc_init (df : Frame) : GSrc df initGState := by
  intro t s h; simp [initGState] at h

theorem gsrc_step {env : Env} {df : Frame} {m : ℚ} {st : GState} {t : Role}
    (hst : GSrc df st) : GSrc df (greedyStep env df m st t) := by
  unfold greedyStep
  cases hp : pick m st.used (sortCandidates (scoresFor env df t)) with
  | none => exact hst
  | some c =>
    intro u s hs
    dsimp only at hs
    by_cases he : u = t
    · rw [if_pos he] at hs
      injection hs with hs
      rw [← hs]
      have hmem : c ∈ scoresFor env df t := by
        have h1 := (pick_mem hp).1
        unfold sortCandidates at h1
        exact (List.mem_insertionSort scoreGe).mp h1
      unfold scoresFor at hmem
      obtain ⟨col, hcol, hceq⟩ := List.mem_map.mp hmem
      refine ⟨col.2, ?_⟩
      rw [← hceq, scoreFor_column]
      exact hcol
    · rw [if_neg he] at hs
      exact hst u s hs

theorem gsrc_run {env : Env} {df : Frame} {m : ℚ} :
    ∀ (order : List Role) (st : GState), GSrc df st →
      GSrc df (greedyRun env df m order st) := by
  intro order
  induction order with
  | nil => intro st hst; exact hst
  | cons a as ih => intro st hst; exact ih _ (gsrc_step hst)

theorem greedyRun_append (env : Env) (df : Frame) (m : ℚ)
    (l₁ l₂ : List Role) (st : GState) :
    greedyRun env df m (l₁ ++ l₂) st = greedyRun env df m l₂ (greedyRun env df m l₁ st) := by
  unfold greedyRun
  rw [List.foldl_append]

theorem greedyRun_mapping_stable {env : Env} {df : Frame} {m : ℚ} {t : Role} :
    ∀ {order : List Role} {st : GState}, t ∉ order →
      (greedyRun env df m order st).mapping t = st.mapping t := by
  intro order
  induction order with
  | nil => intro st _; rfl
  | cons a as ih =>
    intro st hno
    have hne : t ≠ a := fun hx => hno (hx ▸ List.mem_cons_self a as)
    have hnas : t ∉ as := fun hx => hno (List.mem_cons_of_mem _ hx)
    have hstep : (greedyStep env df m st a).mapping t = st.mapping t := by
      unfold greedyStep
      cases hp : pick m st.used (sortCandidates (scoresFor env df a)) with
      | none => rfl
      | some c =>
        dsimp only
        rw [if_neg hne]
    calc (greedyRun env df m (a :: as) st).mapping t
        = (greedyRun env df m as (greedyStep env df m st a)).mapping t := rfl
      _ = (greedyStep env df m st a).mapping t := ih hnas
      _ = st.mapping t := hstep

theorem takeUntil_split {t : Role} :
    ∀ {l : List Role}, t ∈ l → ∃ l₂, l = takeUntil t l ++ t :: l₂ := by
  intro l
  induction l with
  | nil => intro h; simp at h
  | cons a as ih =>
    intro h
    by_cases hat : a = t
    · subst hat
      exact ⟨as, by simp [takeUntil, List.takeWhile_cons]⟩
    · rcases List.mem_cons.mp h with h1 | h2
      · exact absurd h1.symm hat
      · obtain ⟨l₂, hl⟩ := ih h2
        refine ⟨l₂, ?_⟩
        have hta : takeUntil t (a :: as) = a :: takeUntil t as := by
          simp [takeUntil, List.takeWhile_cons, hat]
        rw [hta, List.cons_append, ← hl]

theorem not_mem_takeUntil (t : Role) (l : List Role) : t ∉ takeUntil t l := by
  intro h
  have := List.mem_takeWhile_imp h
  simp at this

theorem targetOrder_perm (env : Env) (df : Frame) :
    (targetOrder env df).Perm TARGET_ROLES :=
  List.perm_insertionSort _ _

theorem targetOrder_sorted (env : Env) (df : Frame) :
    List.Sorted (roleGe env df) (targetOrder env df) :=
  List.sorted_insertionSort _ _

theorem targetOrder_nodup (env : Env) (df : Frame) : (targetOrder env df).Nodup :=
  (targetOrder_perm env df).nodup_iff.mpr (by decide)

theorem role_mem_targets (t : Role) : t ∈ TARGET_ROLES := by
  cases t <;> simp [TARGET_ROLES]

theorem sortCandidates_sorted (l : List ColumnScore) :
    List.Sorted scoreGe (sortCandidates l) :=
  List.sorted_insertionSort _ _

theorem mem_sortCandidates {l : List ColumnScore} {c : ColumnScore} :
    c ∈ sortCandidates l ↔ c ∈ l :=
  List.mem_insertionSort scoreGe

theorem sortCandidates_perm (l : List ColumnScore) : (sortCandidates l).Perm l :=
  List.perm_insertionSort _ _

/-- The core greedy-assignment fact: a role the resolver mapped received
a candidate of maximal score among the candidates whose columns were
still free when the role was processed, and that candidate meets the
threshold. -/
theorem greedy_assign (env : Env) (df : Frame) (m : ℚ) (t : Role)
    (hsome : (greedyResult env df m).mapping t ≠ none) :
    ∃ c, c ∈ scoresFor env df t ∧
      (greedyResult env df m).mapping t = some c.column ∧
      m ≤ c.score ∧
      c.column ∉ (greedyRun env df m (takeUntil t (targetOrder env df)) initGState).used ∧
      ∀ d ∈ scoresFor env df t,
        d.column ∉ (greedyRun env df m (takeUntil t (targetOrder env df)) initGState).used →
        d.score ≤ c.score := by
  have hmem : t ∈ targetOrder env df :=
    (targetOrder_perm env df).mem_iff.mpr (role_mem_targets t)
  obtain ⟨l₂, hsplit⟩ := takeUntil_split hmem
  have hnodup := targetOrder_nodup env df
  rw [hsplit] at hnodup
  have htl2 : t ∉ l₂ := by
    have h2 := (List.nodup_append.mp hnodup).2.1
    exact (List.nodup_cons.mp h2).1
  have hrun : greedyResult env df m =
      greedyRun env df m l₂
        (greedyStep env df m
          (greedyRun env df m (takeUntil t (targetOrder env df)) initGState) t) := by
    unfold greedyResult
    calc greedyRun env df m (targetOrder env df) initGState
        = greedyRun env df m (takeUntil t (targetOrder env df) ++ t :: l₂) initGState := by
          rw [← hsplit]
      _ = greedyRun env df m (t :: l₂)
            (greedyRun env df m (takeUntil t (targetOrder env df)) initGState) :=
          greedyRun_append env df m _ _ _
      _ = greedyRun env df m l₂
            (greedyStep env df m
              (greedyRun env df m (takeUntil t (targetOrder env df)) initGState) t) := rfl
  have hpreB :
      (greedyRun env df m (takeUntil t (targetOrder env df)) initGState).mapping t = none := by
    rw [greedyRun_mapping_stable (not_mem_takeUntil t (targetOrder env df))]
    rfl
  cases hp : pick m
      (greedyRun env df m (takeUntil t (targetOrder env df)) initGState).used
      (sortCandidates (scoresFor env df t)) with
  | none =>
    exfalso
    apply hsome
    rw [hrun]
    have hstep : greedyStep env df m
        (greedyRun env df m (takeUntil t (targetOrder env df)) initGState) t =
        greedyRun env df m (takeUntil t (targetOrder env df)) initGState := by
      unfold greedyStep
      rw [hp]
    rw [hstep, greedyRun_mapping_stable htl2, hpreB]
  | some c =>
    obtain ⟨hcmem, hcnu, hcms⟩ := pick_mem hp
    have hstep : (greedyStep env df m
        (greedyRun env df m (takeUntil t (targetOrder env df)) initGState) t).mapping t =
        some c.column := by
      unfold greedyStep
      rw [hp]
      dsimp only
      rw [if_pos rfl]
    refine ⟨c, mem_sortCandidates.mp hcmem, ?_, hcms, hcnu, ?_⟩
    · rw [hrun, greedyRun_mapping_stable htl2, hstep]
    · intro d hd hdu
      exact pick_spec_max (sortCandidates_sorted _) hp d (mem_sortCandidates.mpr hd) hdu

/-! ### Claim C3 -/

/-- C3: the role mapping returned by `infer_schema` never assigns one
source column to two distinct canonical roles. -/
theorem infer_schema_no_column_shared (env : Env) (df : Frame) (m : ℚ)
    (mp : Role → Option String) (sc : Role → List ColumnScore)
    (h : inferSchema env df m = Except.ok (mp, sc))
    (r₁ r₂ : Role) (c : String) (h₁ : mp r₁ = some c) (h₂ : mp r₂ = some c) :
    r₁ = r₂ := by
  have hmp : (greedyResult env df m).mapping = mp := by
    unfold inferSchema at h
    split_ifs at h with hm
    · simp only [Except.ok.injEq, Prod.mk.injEq] at h
      exact h.1
  rw [← hmp] at h₁ h₂
  exact (ginv_run (targetOrder env df) initGState ginv_init).2 r₁ r₂ c h₁ h₂

/-- C3, witness: on `exampleFrame` the hypotheses are satisfiable and the
uniqueness conclusion holds. -/
theorem infer_schema_no_column_shared_witness :
    exMapping Role.customerId = some "customer_id" ∧
      Role.customerId = Role.customerId :=
  ⟨by with_unfolding_all decide,
   infer_schema_no_column_shared testEnv exampleFrame MIN_INFERENCE_SCORE exMapping
     (fun t => scoresFor testEnv exampleFrame t) (by with_unfolding_all rfl)
     Role.customerId Role.customerId "customer_id"
     (by with_unfolding_all decide) (by with_unfolding_all decide)⟩

/-! ### Claim C1 -/

/-- C1: when `infer_schema` succeeds, every (column, role) pair has been
scored, the roles were processed in descending order of their best
available score, and every role was assigned a candidate that meets the
0.55 threshold and has maximal score among the candidates whose columns
were not consumed by the roles processed before it. -/
theorem infer_schema_greedy (env : Env) (df : Frame)
    (mp : Role → Option String) (sc : Role → List ColumnScore)
    (h : inferSchema env df MIN_INFERENCE_SCORE = Except.ok (mp, sc)) :
    C1Concl env df mp sc := by
  unfold inferSchema at h
  split_ifs at h with hm
  · simp only [Except.ok.injEq, Prod.mk.injEq] at h
    obtain ⟨hmp, hsc⟩ := h
    subst hmp
    subst hsc
    refine ⟨?_, targetOrder_perm env df, targetOrder_sorted env df, ?_⟩
    · intro t
      unfold scoresFor
      rw [List.map_map]
      have hfun : ((fun c : ColumnScore => c.column) ∘
          fun c : String × List Cell => scoreFor t env c.1 c.2) =
          fun c : String × List Cell => c.1 :=
        funext fun c => scoreFor_column t env c.1 c.2
      rw [hfun]
    · intro t
      have hsome : (greedyResult env df MIN_INFERENCE_SCORE).mapping t ≠ none := by
        intro hn
        have hmem : t ∈ missingOf env df MIN_INFERENCE_SCORE :=
          List.mem_filter.mpr ⟨role_mem_targets t, by simp [hn]⟩
        rw [hm] at hmem
        simp at hmem
      obtain ⟨c, hmem, hmap, hms, hnu, hmax⟩ :=
        greedy_assign env df MIN_INFERENCE_SCORE t hsome
      exact ⟨c, hmem, hmap, hms, hnu, hmax⟩

/-- C1, witness: the greedy characterisation evaluated on
`exampleFrame`. -/
theorem infer_schema_greedy_witness :
    C1Concl testEnv exampleFrame exMapping
      (fun t => scoresFor testEnv exampleFrame t) :=
  infer_schema_greedy testEnv exampleFrame exMapping
    (fun t => scoresFor testEnv exampleFrame t) (by with_unfolding_all rfl)

/-! ### Claim C2 -/

theorem joinComma_contains {x : String} :
    ∀ {l : List String}, x ∈ l → StrContains (joinComma l) x := by
  intro l
  induction l with
  | nil => intro h; simp at h
  | cons a as ih =>
    intro h
    rcases List.mem_cons.mp h with rfl | h2
    · cases as with
      | nil => exact ⟨[], [], by simp [joinComma]⟩
      | cons b bs =>
        refine ⟨[], (", " ++ joinComma (b :: bs)).data, ?_⟩
        show (joinComma (x :: b :: bs)).data = [] ++ x.data ++ (", " ++ joinComma (b :: bs)).data
        simp [joinComma]
    · cases as with
      | nil => simp at h2
      | cons b bs =>
        obtain ⟨u, v, huv⟩ := ih h2
        refine ⟨(a ++ ", ").data ++ u, v, ?_⟩
        show (joinComma (a :: b :: bs)).data = (a ++ ", ").data ++ u ++ x.data ++ v
        simp only [joinComma, String.data_append, huv, List.append_assoc]

theorem strContains_mkError {missing : List Role}
    {scores : Role → List ColumnScore} {t : Role} (h : t ∈ missing) :
    StrContains (mkError missing scores).message (roleName t) := by
  obtain ⟨u, v, huv⟩ := joinComma_contains (List.mem_map_of_mem roleName h)
  refine ⟨"Unable to infer required columns: ".data ++ u,
    v ++ ". Please rename the relevant fields or supply mapping hints.".data, ?_⟩
  show (mkError missing scores).message.data = _
  unfold mkError
  dsimp only
  simp only [String.data_append, huv, List.append_assoc]

theorem suggestFor_eq_none_iff (l : List ColumnScore) :
    suggestFor l = none ↔ l = [] := by
  unfold suggestFor
  cases hs : sortCandidates l with
  | nil =>
    dsimp only
    constructor
    · intro _
      have hperm := sortCandidates_perm l
      rw [hs] at hperm
      exact hperm.nil_eq.symm
    · intro _; rfl
  | cons top rest =>
    dsimp only
    constructor
    · intro hx; exact absurd hx (by simp)
    · intro hl
      rw [hl] at hs
      simp [sortCandidates] at hs

theorem suggestFor_some {l : List ColumnScore} {s : Suggestion}
    (h : suggestFor l = some s) :
    ∃ top, top ∈ l ∧ s.best_column = top.column ∧ s.score = round3 top.score ∧
      s.components = top.components ∧ ∀ c ∈ l, c.score ≤ top.score := by
  unfold suggestFor at h
  cases hs : sortCandidates l with
  | nil =>
    rw [hs] at h
    simp at h
  | cons top rest =>
    rw [hs] at h
    dsimp only at h
    injection h with h
    subst h
    have hsorted := sortCandidates_sorted l
    rw [hs, List.sorted_cons] at hsorted
    refine ⟨top, ?_, rfl, rfl, rfl, ?_⟩
    · have hx : top ∈ sortCandidates l := by
        rw [hs]; exact List.mem_cons_self _ _
      exact mem_sortCandidates.mp hx
    · intro c hc
      have hc2 : c ∈ top :: rest := by
        rw [← hs]; exact mem_sortCandidates.mpr hc
      rcases List.mem_cons.mp hc2 with rfl | hc3
      · exact le_refl _
      · exact hsorted.1 c hc3

/-- C2: when the greedy pass leaves a mandatory role unmapped,
`infer_schema` raises the typed error instead of returning a partial
mapping; the message names every unmapped role, and the suggestions
carry, per unmapped role, `none` exactly when the table had no columns
and otherwise the top-scoring candidate with its rounded score and full
component breakdown. -/
theorem infer_schema_failure_report (env : Env) (df : Frame) (t₀ : Role)
    (h : (greedyResult env df MIN_INFERENCE_SCORE).mapping t₀ = none) :
    C2Concl env df := by
  have ht₀ : t₀ ∈ missingOf env df MIN_INFERENCE_SCORE :=
    List.mem_filter.mpr ⟨role_mem_targets t₀, by simp [h]⟩
  have hne : missingOf env df MIN_INFERENCE_SCORE ≠ [] := List.ne_nil_of_mem ht₀
  refine ⟨?_, hne, ?_, ?_, rfl, ?_, ?_⟩
  · unfold inferSchema
    rw [if_neg hne]
  · intro t
    constructor
    · intro ht
      have hp := (List.mem_filter.mp ht).2
      simpa using hp
    · intro ht
      exact List.mem_filter.mpr ⟨role_mem_targets t, by simp [ht]⟩
  · intro t ht
    exact strContains_mkError ht
  · intro t _
    constructor
    · intro hnone
      have hl : scoresFor env df t = [] := (suggestFor_eq_none_iff _).mp hnone
      unfold scoresFor at hl
      exact List.map_eq_nil_iff.mp hl
    · intro hcols
      apply (suggestFor_eq_none_iff _).mpr
      unfold scoresFor
      rw [hcols]
      rfl
  · intro t _ s hs
    exact suggestFor_some hs

/-- C2, witness: the failure report evaluated on the amount-free
two-column table. -/
theorem infer_schema_failure_report_witness :
    (greedyResult testEnv twoColFrame MIN_INFERENCE_SCORE).mapping
        Role.transactionAmount = none ∧
      C2Concl testEnv twoColFrame :=
  ⟨by with_unfolding_all decide,
   infer_schema_failure_report testEnv twoColFrame Role.transactionAmount
     (by with_unfolding_all decide)⟩

theorem testEnv_wf : Env.WF testEnv := by
  intro a b
  unfold testEnv
  dsimp only
  split_ifs <;> norm_num

/-- C7, witness: the amended component rule evaluated for the
`customer_id` column name and the `CustomerID` role on one value. -/
theorem components_record_rule_witness :
    Env.WF testEnv ∧ nonNullCells [Cell.str "a"] ≠ [] ∧
      ((scoreFor Role.customerId testEnv "customer_id" [Cell.str "a"]).components.lookup
          "name_similarity" =
          some (round3 (nameSimilarity testEnv "customer_id" Role.customerId)) ∧
        0 ≤ round3 (nameSimilarity testEnv "customer_id" Role.customerId) ∧
        round3 (nameSimilarity testEnv "customer_id" Role.customerId) ≤ 1 ∧
        (scoreFor Role.customerId testEnv "customer_id" [Cell.str "a"]).components.lookup
          "regex_bonus" = some (regexBonus "customer_id" Role.customerId) ∧
        (regexBonus "customer_id" Role.customerId = 0 ∨
          regexBonus "customer_id" Role.customerId = 0.4) ∧
        min 0.3 (nameSimilarity testEnv "customer_id" Role.customerId * 0.3) ≤ 0.3) :=
  ⟨testEnv_wf, by with_unfolding_all decide,
   components_record_rule testEnv testEnv_wf "customer_id" Role.customerId
     [Cell.str "a"] (by with_unfolding_all decide)⟩

/-! ### Frame-level lemmas for the standardizer -/

theorem map_fst_setCol (cols : List (String × List Cell)) (n : String) (v : List Cell) :
    (cols.map (fun c => if c.1 == n then (c.1, v) else c)).map Prod.fst =
      cols.map Prod.fst := by
  induction cols with
  | nil => rfl
  | cons c cs ih =>
    dsimp only [List.map]
    rw [ih]
    congr 1
    split <;> rfl

theorem setCol_names (f : Frame) (n : String) (v : List Cell) :
    (f.setCol n v).cols.map Prod.fst = f.cols.map Prod.fst := by
  obtain ⟨cols⟩ := f
  unfold Frame.setCol
  exact map_fst_setCol cols n v

theorem find?_set_self (cols : List (String × List Cell)) (n : String) (v : List Cell)
    (h : n ∈ cols.map Prod.fst) :
    (cols.map (fun c => if c.1 == n then (c.1, v) else c)).find?
      (fun c => c.1 == n) = some (n, v) := by
  induction cols with
  | nil => simp at h
  | cons c cs ih =>
    dsimp only [List.map]
    by_cases hc : c.1 = n
    · rw [if_pos (by simp [hc])]
      rw [List.find?_cons_of_pos _ (by simp [hc])]
      rw [hc]
    · rw [if_neg (by simp [hc])]
      rw [List.find?_cons_of_neg _ (by simp [hc])]
      apply ih
      rcases List.mem_cons.mp h with h1 | h2
      · exact absurd h1.symm hc
      · exact h2

theorem getColD_setCol_self (f : Frame) (n : String) (v : List Cell)
    (h : n ∈ f.cols.map Prod.fst) : (f.setCol n v).getColD n = v := by
  obtain ⟨cols⟩ := f
  unfold Frame.setCol Frame.getColD
  dsimp only
  rw [find?_set_self cols n v h]
  rfl

theorem find?_set_other (cols : List (String × List Cell)) (n : String) (v : List Cell)
    (n' : String) (h : n' ≠ n) :
    (cols.map (fun c => if c.1 == n then (c.1, v) else c)).find?
      (fun c => c.1 == n') = cols.find? (fun c => c.1 == n') := by
  induction cols with
  | nil => rfl
  | cons c cs ih =>
    dsimp only [List.map]
    by_cases hc : c.1 = n'
    · have hcn : ¬ (c.1 = n) := fun hx => h (hc ▸ hx ▸ rfl)
      rw [if_neg (by simp [hcn])]
      rw [List.find?_cons_of_pos _ (by simp [hc]),
        List.find?_cons_of_pos _ (by simp [hc])]
    · by_cases hcn : c.1 = n
      · rw [if_pos (by simp [hcn])]
        rw [List.find?_cons_of_neg _ (by simp [hc]),
          List.find?_cons_of_neg _ (by simp [hc])]
        exact ih
      · rw [if_neg (by simp [hcn])]
        rw [List.find?_cons_of_neg _ (by simp [hc]),
          List.find?_cons_of_neg _ (by simp [hc])]
        exact ih

theorem getColD_setCol_other (f : Frame) (n : String) (v : List Cell)
    (n' : String) (h : n' ≠ n) : (f.setCol n v).getColD n' = f.getColD n' := by
  obtain ⟨cols⟩ := f
  unfold Frame.setCol Frame.getColD
  dsimp only
  rw [find?_set_other cols n v n' h]

/-! ### Consequences of a successful inference for the standardizer -/

theorem inferSchema_ok_mapping (env : Env) (df : Frame) (m : ℚ)
    (mp : Role → Option String) (sc : Role → List ColumnScore)
    (h : inferSchema env df m = Except.ok (mp, sc)) :
    mp = (greedyResult env df m).mapping ∧ missingOf env df m = [] := by
  unfold inferSchema at h
  split_ifs at h with hm
  · simp only [Except.ok.injEq, Prod.mk.injEq] at h
    exact ⟨h.1.symm, hm⟩

theorem greedyResult_inj (env : Env) (df : Frame) (m : ℚ) :
    ∀ t₁ t₂ c, (greedyResult env df m).mapping t₁ = some c →
      (greedyResult env df m).mapping t₂ = some c → t₁ = t₂ :=
  (ginv_run (targetOrder env df) initGState ginv_init).2

theorem mapping_total_of_ok {env : Env} {df : Frame} {m : ℚ}
    {mp : Role → Option String} {sc : Role → List ColumnScore}
    (h : inferSchema env df m = Except.ok (mp, sc)) (t : Role) :
    ∃ s, mp t = some s := by
  obtain ⟨hmp, hm⟩ := inferSchema_ok_mapping env df m mp sc h
  subst hmp
  cases hmt : (greedyResult env df m).mapping t with
  | none =>
    exfalso
    have hmem : t ∈ missingOf env df m :=
      List.mem_filter.mpr ⟨role_mem_targets t, by simp [hmt]⟩
    rw [hm] at hmem
    simp at hmem
  | some s => exact ⟨s, rfl⟩

theorem mapping_source_mem {env : Env} {df : Frame} {m : ℚ}
    {mp : Role → Option String} {sc : Role → List ColumnScore}
    (h : inferSchema env df m = Except.ok (mp, sc)) {t : Role} {s : String}
    (ht : mp t = some s) : ∃ v, (s, v) ∈ df.cols := by
  obtain ⟨hmp, _⟩ := inferSchema_ok_mapping env df m mp sc h
  subst hmp
  exact gsrc_run (targetOrder env df) initGState (gsrc_init df) t s ht

theorem roleOfSource_eq {env : Env} {df : Frame} {m : ℚ}
    {mp : Role → Option String} {sc : Role → List ColumnScore}
    (h : inferSchema env df m = Except.ok (mp, sc)) {t : Role} {s : String}
    (ht : mp t = some s) : roleOfSource mp s = some t := by
  have hinj : ∀ t₁ t₂ c, mp t₁ = some c → mp t₂ = some c → t₁ = t₂ := by
    obtain ⟨hmp, _⟩ := inferSchema_ok_mapping env df m mp sc h
    subst hmp
    exact greedyResult_inj env df m
  unfold roleOfSource TARGET_ROLES
  cases t with
  | customerId =>
    rw [List.find?_cons_of_pos _ (by simp [ht])]
  | transactionDate =>
    rw [List.find?_cons_of_neg _ (by
        simp only [beq_iff_eq]
        intro he
        exact Role.noConfusion (hinj _ _ _ he ht)),
      List.find?_cons_of_pos _ (by simp [ht])]
  | transactionAmount =>
    rw [List.find?_cons_of_neg _ (by
        simp only [beq_iff_eq]
        intro he
        exact Role.noConfusion (hinj _ _ _ he ht)),
      List.find?_cons_of_neg _ (by
        simp only [beq_iff_eq]
        intro he
        exact Role.noConfusion (hinj _ _ _ he ht)),
      List.find?_cons_of_pos _ (by simp [ht])]

theorem renamed_name_mem {env : Env} {df : Frame} {m : ℚ}
    {mp : Role → Option String} {sc : Role → List ColumnScore}
    (h : inferSchema env df m = Except.ok (mp, sc)) {t : Role} {s : String}
    (ht : mp t = some s) :
    roleName t ∈ (renamedFrame df mp).cols.map Prod.fst := by
  obtain ⟨v, hv⟩ := mapping_source_mem h ht
  unfold renamedFrame renameFrame
  dsimp only
  rw [List.map_map]
  apply List.mem_map.mpr
  refine ⟨(s, v), hv, ?_⟩
  show (match roleOfSource mp s with
        | some u => roleName u
        | none => s) = roleName t
  rw [roleOfSource_eq h ht]

theorem role_name_mem_stdF3 {env : Env} {df : Frame}
    {mp : Role → Option String} {sc : Role → List ColumnScore}
    (h : inferSchema env df MIN_INFERENCE_SCORE = Except.ok (mp, sc)) (t : Role) :
    roleName t ∈ (stdF3 env df mp).cols.map Prod.fst := by
  obtain ⟨s, hs⟩ := mapping_total_of_ok h t
  have h0 := renamed_name_mem h hs
  unfold stdF3 stdF2 stdF1
  rw [setCol_names, setCol_names, setCol_names]
  exact h0

/-! ### Claim C8 -/

/-- C8: during standardization, every `TransactionAmount` value that
fails numeric coercion is set to 0 rather than dropped or raised; the
failures are reported in a single aggregate count/percentage warning,
and the parse ratio is recorded under `TransactionAmount` in the
coercion summary. -/
theorem standardize_amount_rule (env : Env) (df : Frame)
    (mp : Role → Option String) (sc : Role → List ColumnScore)
    (h : inferSchema env df MIN_INFERENCE_SCORE = Except.ok (mp, sc)) :
    inferAndStandardize env df MIN_INFERENCE_SCORE =
        Except.ok (stdF4 env df mp, diagnosticsOf env df mp) ∧
      C8Concl env df mp := by
  have hb1 : ("Blank CustomerID values detected" ==
      "Rows with non-numeric TransactionAmount") = false := by decide
  have hb2 : ("Rows with unparseable TransactionDate" ==
      "Rows with non-numeric TransactionAmount") = false := by decide
  have hb3 : ("Rows with non-numeric TransactionAmount" ==
      "Rows with non-numeric TransactionAmount") = true := by decide
  have hpres : "TransactionAmount" ∈ (stdF3 env df mp).cols.map Prod.fst :=
    role_name_mem_stdF3 h Role.transactionAmount
  have hcol : (stdF4 env df mp).getColD "TransactionAmount" =
      amtColOf (amtParsed env df mp).1 := by
    unfold stdF4
    exact getColD_setCol_self _ _ _ hpres
  constructor
  · unfold inferAndStandardize
    rw [h]
    rfl
  refine ⟨hcol, ?_, ?_, rfl, ?_, ?_⟩
  · rw [hcol]
    unfold amtColOf amtParsed attemptNumeric
    simp [List.length_map]
  · intro i hi
    rw [hcol]
    unfold amtColOf
    rw [List.get?_map, hi]
    rfl
  · unfold diagnosticsOf summariseInvalid
    dsimp only
    split_ifs <;>
      simp_all [List.reduceOption, List.countP_cons, List.countP_nil,
        hb1, hb2, hb3]
  · intro w hw hlbl
    unfold diagnosticsOf summariseInvalid at hw
    dsimp only at hw
    split_ifs at hw <;>
      simp only [List.reduceOption, List.filterMap_cons, List.filterMap_nil,
        List.mem_cons, List.not_mem_nil, or_false, id] at hw <;>
      rcases hw with hw | hw | hw <;>
      (try subst hw) <;>
      first
        | (exact absurd hlbl (by decide))
        | exact ⟨rfl, rfl⟩
        | simp_all

/-- C8, witness: the amount rule evaluated on the table with one
non-numeric amount cell. -/
theorem standardize_amount_rule_witness :
    inferAndStandardize testEnv badAmtFrame MIN_INFERENCE_SCORE =
        Except.ok (stdF4 testEnv badAmtFrame badAmtMapping,
          diagnosticsOf testEnv badAmtFrame badAmtMapping) ∧
      C8Concl testEnv badAmtFrame badAmtMapping :=
  standardize_amount_rule testEnv badAmtFrame badAmtMapping
    (fun t => scoresFor testEnv badAmtFrame t) (by with_unfolding_all rfl)

/-! ### Claim C9 -/

/-- C9: `infer_and_standardize_rfm` never mutates the table of the
caller — in the heap model the standardized frame is a freshly
allocated reference and the frame of the caller is unchanged. -/
theorem standardize_no_input_mutation (env : Env) (m : ℚ)
    (heap : List Frame) (dfRef : ℕ) (hlt : dfRef < heap.length)
    (hq : List Frame) (sRef : ℕ) (diag : Diagnostics)
    (h : inferAndStandardizeHeap env m heap dfRef = Except.ok (hq, sRef, diag)) :
    C9Concl heap hq dfRef sRef := by
  unfold inferAndStandardizeHeap at h
  dsimp only at h
  cases hinf : inferSchema env ((heap.get? dfRef).getD ⟨[]⟩) m with
  | error e =>
    rw [hinf] at h
    exact (Except.noConfusion h)
  | ok p =>
    obtain ⟨mp, sc⟩ := p
    rw [hinf] at h
    dsimp only at h
    simp only [Except.ok.injEq, Prod.mk.injEq] at h
    obtain ⟨h5eq, hsref, _⟩ := h
    have hne : heap.length ≠ dfRef := (Nat.ne_of_lt hlt).symm
    refine ⟨hsref.symm, ?_, ?_⟩
    · rw [← hsref]
      exact Nat.ne_of_lt hlt
    · rw [← h5eq]
      unfold hmod
      rw [List.get?_set_ne _ _ hne, List.get?_set_ne _ _ hne,
        List.get?_set_ne _ _ hne, List.get?_set_ne _ _ hne]
      exact List.get?_append hlt

/-- C9, witness: the frame-preservation conclusion on a one-frame
heap. -/
theorem standardize_no_input_mutation_witness :
    0 < [exampleFrame].length ∧ C9Concl [exampleFrame] exHeapOut 0 exRefOut :=
  ⟨by decide,
   standardize_no_input_mutation testEnv MIN_INFERENCE_SCORE [exampleFrame] 0
     (by decide) exHeapOut exRefOut exDiagOut (by with_unfolding_all rfl)⟩

/-! ### Claim C10 -/

theorem custCell_eq (env : Env) (c : Cell) :
    (if Cell.str (stripStr (c.pyStr env)) = Cell.str "" then Cell.na
      else Cell.str (stripStr (c.pyStr env))) =
    (if stripStr (c.pyStr env) = "" then Cell.na
      else Cell.str (stripStr (c.pyStr env))) := by
  by_cases hx : stripStr (c.pyStr env) = "" <;> simp [hx]

theorem custCols_combined (env : Env) (raw : List Cell) :
    custColBlankToNa (custColStripped env raw) =
      raw.map (fun c => if stripStr (c.pyStr env) = "" then Cell.na
        else Cell.str (stripStr (c.pyStr env))) := by
  unfold custColBlankToNa custColStripped
  rw [List.map_map]
  apply List.map_congr_left
  intro c _
  exact custCell_eq env c

/-- C10: a missing source `CustomerID` value is turned into the
non-empty literal string `"nan"` by the string cast; it is therefore
neither set back to missing nor counted in the blank warning — exactly
the values that strip to the empty string are treated as missing. -/
theorem customer_nan_rule (env : Env) (df : Frame)
    (mp : Role → Option String) (sc : Role → List ColumnScore) (i : ℕ)
    (h : inferSchema env df MIN_INFERENCE_SCORE = Except.ok (mp, sc))
    (hna : (custColRaw df mp).get? i = some Cell.na) :
    inferAndStandardize env df MIN_INFERENCE_SCORE =
        Except.ok (stdF4 env df mp, diagnosticsOf env df mp) ∧
      C10Concl env df mp i := by
  obtain ⟨s, hs⟩ := mapping_total_of_ok h Role.customerId
  have hpres0 : "CustomerID" ∈ (renamedFrame df mp).cols.map Prod.fst :=
    renamed_name_mem h hs
  have hc1 : (stdF1 env df mp).getColD "CustomerID" =
      custColStripped env (custColRaw df mp) := by
    unfold stdF1
    exact getColD_setCol_self _ _ _ hpres0
  have hpres1 : "CustomerID" ∈ (stdF1 env df mp).cols.map Prod.fst := by
    unfold stdF1
    rw [setCol_names]
    exact hpres0
  have hc2 : (stdF2 env df mp).getColD "CustomerID" =
      custColBlankToNa (custColStripped env (custColRaw df mp)) := by
    unfold stdF2
    rw [getColD_setCol_self _ _ _ hpres1, hc1]
  have hc4 : (stdF4 env df mp).getColD "CustomerID" =
      (stdF2 env df mp).getColD "CustomerID" := by
    unfold stdF4 stdF3
    rw [getColD_setCol_other _ _ _ _ (by decide),
      getColD_setCol_other _ _ _ _ (by decide)]
  have hnanstr : stripStr (Cell.na.pyStr env) = "nan" := by
    show stripStr "nan" = "nan"
    decide
  have hcomb : (stdF4 env df mp).getColD "CustomerID" =
      (custColRaw df mp).map (fun c => if stripStr (c.pyStr env) = "" then Cell.na
        else Cell.str (stripStr (c.pyStr env))) := by
    rw [hc4, hc2, custCols_combined]
  constructor
  · unfold inferAndStandardize
    rw [h]
    rfl
  refine ⟨?_, ?_, ?_, hnanstr⟩
  · rw [hcomb, List.get?_map, hna]
    simp [hnanstr]
  · intro j c hj
    rw [hcomb, List.get?_map, hj]
    by_cases hx : stripStr (c.pyStr env) = ""
    · simp [hx]
    · simp [hx]
  · unfold blankCount
    rw [hc1]
    unfold custColStripped
    rw [List.countP_map]
    apply List.countP_congr
    intro c _
    by_cases hx : stripStr (c.pyStr env) = "" <;>
      simp [Function.comp, hx]

/-- C10, witness: the `nan` conclusion on the table whose second
customer id is missing. -/
theorem customer_nan_rule_witness :
    (custColRaw naFrame naMapping).get? 1 = some Cell.na ∧
      (inferAndStandardize testEnv naFrame MIN_INFERENCE_SCORE =
          Except.ok (stdF4 testEnv naFrame naMapping,
            diagnosticsOf testEnv naFrame naMapping) ∧
        C10Concl testEnv naFrame naMapping 1) :=
  ⟨by with_unfolding_all decide,
   customer_nan_rule testEnv naFrame naMapping
     (fun t => scoresFor testEnv naFrame t) 1 (by with_unfolding_all rfl)
     (by with_unfolding_all decide)⟩

end OpenRFM
